import Mathlib

/-!
# Verification of the Parser repository's core engines

This file is a shallow embedding, in Lean 4, of the parsing core of the
repository (a visual financial-file parser): the delimited (CSV) engine, the
fixed-column engine, the SWIFT FIN block engine, the ISO 20022 XML engine, the
custom (pattern / generic) engine, the streaming delimited engine, the format
detector, the top-level dispatcher and the worker-facing parser service.

Modelling conventions:
* JavaScript strings are Lean `String`s; the few JS built-ins the code relies
  on (`trim`, `substring`, `toLowerCase`, `Number`, `parseFloat`, `includes`)
  are modelled by executable Lean functions over the underlying character
  lists, so every definition evaluates by kernel reduction.
* Wall-clock readings (`performance.now()`, `Date.now()`) are modelled as `0`:
  no verified property depends on elapsed time or on the timestamp-derived
  dataset id.
* External libraries and runtime services (PapaParse's chunk delivery,
  `fast-xml-parser`, the `RegExp` engine, `JSON.parse`, `new Function`) are
  modelled either by small executable stand-ins or by explicit function
  parameters bundled in `JsEnv`, so that theorems quantify over their
  behaviour.
* JavaScript numbers are modelled as exact fractions `JsNumber` (an integer
  mantissa over a power-of-ten denominator, kept unnormalised so the kernel
  evaluates them); `NaN` outcomes are represented by `Option`. `Number`'s
  non-finite and non-decimal corner forms are noted at the relevant
  definitions.
-/

/-! ## JavaScript string primitives -/

/-- The whitespace characters recognised by the model of JS `\s`, `trim` and
`Number` coercion: space, tab, LF, CR, VT, FF (the ASCII portion of the JS
whitespace class; the Unicode spaces are not exercised by this code base). -/
def jsWhitespaceChar (c : Char) : Bool :=
  c = ' ' || c = '\t' || c = '\n' || c = '\r' || c = '\x0b' || c = '\x0c'

/-- Model of `String.prototype.trim`. -/
def jsTrim (s : String) : String :=
  ⟨(s.data.dropWhile jsWhitespaceChar).reverse.dropWhile jsWhitespaceChar |>.reverse⟩

/-- Model of `s.substring(a, b)`: clamps both indices to `[0, length]` and
swaps them when `a > b`. -/
def jsSubstring (s : String) (a b : Nat) : String :=
  let n := s.data.length
  let a' := min a n
  let b' := min b n
  let lo := min a' b'
  let hi := max a' b'
  ⟨(s.data.drop lo).take (hi - lo)⟩

/-- Model of `s.toLowerCase()` (ASCII, which is all the code compares). -/
def jsToLower (s : String) : String :=
  ⟨s.data.map Char.toLower⟩

/-- Number of occurrences of character `c` in `s`, i.e. the length of
`s.match(/c/g)`. -/
def countChar (s : String) (c : Char) : Nat :=
  (s.data.filter (· = c)).length

/-- Model of `s.split(sep)` for a single-character separator (as used with
`'\n'`): every occurrence splits, empty segments are kept. -/
def jsSplitChar (sep : Char) (s : String) : List String :=
  (s.data.foldr
    (fun c acc =>
      match acc with
      | [] => [[c]]
      | g :: gs => if c = sep then [] :: g :: gs else (c :: g) :: gs)
    [[]]).map fun l => (⟨l⟩ : String)

/-- Model of splitting on the regex `/\r?\n/` (line splitting used by the
fixed-column and generic engines): split on `'\n'`, then strip one trailing
`'\r'` from each piece. -/
def jsSplitLines (s : String) : List String :=
  (jsSplitChar '\n' s).map fun l =>
    ⟨match l.data.reverse with
     | '\r' :: rest => rest.reverse
     | _ => l.data⟩

/-- Model of `a.includes(b)` (substring containment). -/
def jsIncludes (s pat : String) : Bool :=
  pat.data.isEmpty ||
    decide (2 ≤ ((s.splitOn pat).length))

/-- Model of `s.startsWith(p)`. -/
def jsStartsWith (s p : String) : Bool :=
  p.data.isPrefixOf s.data

/-- Decimal digits of a natural number (fuel-based so the kernel reduces it). -/
def natDigitsAux : Nat → Nat → List Char
  | 0, _ => []
  | fuel + 1, n =>
    if n = 0 then []
    else natDigitsAux fuel (n / 10) ++ [Char.ofNat (48 + n % 10)]

/-- Decimal rendering of a natural number, used to model JS template strings
such as `` `field-${index}` ``. -/
def natToStr (n : Nat) : String :=
  if n = 0 then "0" else ⟨natDigitsAux (n + 1) n⟩

/-! ## Model of JS numeric coercion

`Number(s)` (used via `isNaN(Number(s))` in the type-inference functions)
accepts, after trimming whitespace: the empty string (value `0`), an optionally
signed decimal literal (`digits [. digits] [exponent]` or `. digits
[exponent]`, or `Infinity`), or an unsigned `0x`/`0o`/`0b` literal.
`parseFloat(s)` (used by the fixed-column number coercion) instead parses the
longest decimal-literal prefix and yields `NaN` only when no digit is found.
The `Infinity` forms are not modelled (no input in this code base produces
them); they are noted here for completeness. -/

/-- Is `c` a decimal digit? -/
def isDigitChar (c : Char) : Bool := '0' ≤ c && c ≤ '9'

/-- Recognises a complete exponent tail: `[+|-] digits+`. -/
def validExpTail (cs : List Char) : Bool :=
  match cs with
  | '+' :: ds => !ds.isEmpty && ds.all isDigitChar
  | '-' :: ds => !ds.isEmpty && ds.all isDigitChar
  | ds => !ds.isEmpty && ds.all isDigitChar

/-- Recognises the part after the decimal point: `digits [exponent]`,
where `seenDigit` records whether the integer part had a digit. -/
def validFracExp (cs : List Char) (seenDigit : Bool) : Bool :=
  let fracDigits := cs.takeWhile isDigitChar
  let rest := cs.dropWhile isDigitChar
  let seen := seenDigit || !fracDigits.isEmpty
  match rest with
  | [] => seen
  | 'e' :: tail => seen && validExpTail tail
  | 'E' :: tail => seen && validExpTail tail
  | _ => false

/-- Recognises a complete unsigned decimal number literal
(`digits ['.' digits] [exponent]` or `'.' digits [exponent]`). -/
def validDecimal (cs : List Char) : Bool :=
  let intPart := cs.takeWhile isDigitChar
  let rest := cs.dropWhile isDigitChar
  match rest with
  | [] => !intPart.isEmpty
  | '.' :: tail => validFracExp tail (!intPart.isEmpty)
  | 'e' :: tail => !intPart.isEmpty && validExpTail tail
  | 'E' :: tail => !intPart.isEmpty && validExpTail tail
  | _ => false

/-- Is `c` a hexadecimal digit? -/
def isHexChar (c : Char) : Bool :=
  isDigitChar c || ('a' ≤ c && c ≤ 'f') || ('A' ≤ c && c ≤ 'F')

/-- Model of `!isNaN(Number(s))`: does the whole string coerce to a (finite or
infinite) number rather than `NaN`? The empty or all-whitespace string
coerces to `0`. -/
def jsIsNumeric (s : String) : Bool :=
  let t := (jsTrim s).data
  match t with
  | [] => true
  | '+' :: rest => validDecimal rest
  | '-' :: rest => validDecimal rest
  | '0' :: 'x' :: rest => !rest.isEmpty && rest.all isHexChar
  | '0' :: 'X' :: rest => !rest.isEmpty && rest.all isHexChar
  | '0' :: 'o' :: rest => !rest.isEmpty && rest.all (fun c => '0' ≤ c && c ≤ '7')
  | '0' :: 'O' :: rest => !rest.isEmpty && rest.all (fun c => '0' ≤ c && c ≤ '7')
  | '0' :: 'b' :: rest => !rest.isEmpty && rest.all (fun c => c = '0' || c = '1')
  | '0' :: 'B' :: rest => !rest.isEmpty && rest.all (fun c => c = '0' || c = '1')
  | _ => validDecimal t

/-- Value of a digit character. -/
def digitVal (c : Char) : Nat := c.toNat - 48

/-- Natural number denoted by a digit list. -/
def digitsToNat (cs : List Char) : Nat :=
  cs.foldl (fun acc c => acc * 10 + digitVal c) 0

/-- A JS number value, as an exact fraction `num / 10 ^ tenExp`. The
representation is kept unnormalised so that every arithmetic step is plain
`Int`/`Nat` arithmetic, which the kernel evaluates; `jsNumZero` tests the
denoted value. -/
structure JsNumber where
  num : Int
  tenExp : Nat
  deriving DecidableEq, Repr

/-- Does a `JsNumber` denote the number `0`? -/
def jsNumZero (x : JsNumber) : Bool := x.num = 0

/-- Model of `parseFloat(s)`: skip leading whitespace, optional sign, then the
longest `digits ['.' digits] [exponent]` prefix; `none` models `NaN` (no digit
found). The exponent is only consumed when complete. -/
def jsParseFloat (s : String) : Option JsNumber :=
  let t := (s.data.dropWhile jsWhitespaceChar)
  let (neg, u) : Bool × List Char :=
    match t with
    | '-' :: rest => (true, rest)
    | '+' :: rest => (false, rest)
    | rest => (false, rest)
  let intDigits := u.takeWhile isDigitChar
  let afterInt := u.dropWhile isDigitChar
  let (fracDigits, afterFrac) : List Char × List Char :=
    match afterInt with
    | '.' :: rest => (rest.takeWhile isDigitChar, rest.dropWhile isDigitChar)
    | _ => ([], afterInt)
  if intDigits.isEmpty && fracDigits.isEmpty then none
  else
    let mantissa : Int :=
      (digitsToNat intDigits * 10 ^ fracDigits.length + digitsToNat fracDigits : Nat)
    let signed : Int := if neg then -mantissa else mantissa
    let expo : Int :=
      match afterFrac with
      | 'e' :: '+' :: ds | 'E' :: '+' :: ds =>
        if ds.takeWhile isDigitChar |>.isEmpty then 0
        else (digitsToNat (ds.takeWhile isDigitChar) : Int)
      | 'e' :: '-' :: ds | 'E' :: '-' :: ds =>
        if ds.takeWhile isDigitChar |>.isEmpty then 0
        else -(digitsToNat (ds.takeWhile isDigitChar) : Int)
      | 'e' :: ds | 'E' :: ds =>
        if ds.takeWhile isDigitChar |>.isEmpty then 0
        else (digitsToNat (ds.takeWhile isDigitChar) : Int)
      | _ => 0
    match expo with
    | .ofNat k => some { num := signed * 10 ^ k, tenExp := fracDigits.length }
    | .negSucc k => some { num := signed, tenExp := fracDigits.length + (k + 1) }

/-- The three date shapes shared by both type-inference routines:
`YYYY-MM-DD`, `MM/DD/YYYY`, `MM-DD-YYYY`. -/
def isDateShape (s : String) : Bool :=
  match s.data with
  | [a, b, c, d, '-', e, f, '-', g, h] =>
    [a, b, c, d, e, f, g, h].all isDigitChar
  | [a, b, '/', c, d, '/', e, f, g, h] =>
    [a, b, c, d, e, f, g, h].all isDigitChar
  | [a, b, '-', c, d, '-', e, f, g, h] =>
    [a, b, c, d, e, f, g, h].all isDigitChar
  | _ => false

/-! ## Data model (`src/types/parser.ts`) -/

/-- A parsed field value: `string | number | boolean | null`. -/
inductive JVal where
  | nullV : JVal
  | strV : String → JVal
  | numV : JsNumber → JVal
  | boolV : Bool → JVal
  deriving DecidableEq, Repr

/-- JS truthiness test on a field value (`!value` is `jsFalsy`). -/
def jsFalsy : JVal → Bool
  | .nullV => true
  | .strV s => s = ""
  | .numV q => jsNumZero q
  | .boolV b => !b

/-- `FieldDefinition` (fixed-column engine). The optional `required` flag is a
`Bool` (JS treats the absent flag as falsy). -/
structure FieldDefinition where
  id : String
  name : String
  start : Nat
  length : Nat
  type : String
  required : Bool := false
  deriving DecidableEq, Repr

/-- `ParserConfig`. The `type` tag is an open `String` (the runtime value of
the TS union), which is what lets the dispatcher's default branch be stated.
Absent optional members are `none`. -/
structure ParserConfig where
  type : String
  name : String
  delimiter : Option String := none
  hasHeader : Option Bool := none
  quoteChar : Option String := none
  escapeChar : Option String := none
  fieldDefinitions : Option (List FieldDefinition) := none
  messageType : Option String := none
  customPattern : Option String := none
  parseFunction : Option String := none
  chunkSize : Option Nat := none
  encoding : Option String := none
  deriving DecidableEq, Repr

/-- `ParsedField`. -/
structure ParsedField where
  id : String
  name : String
  value : JVal
  type : String
  originalValue : String
  position : Option (Nat × Nat) := none
  deriving DecidableEq, Repr

/-- `ParsedRecord`. `errors` is `none` when the TS field is `undefined`. -/
structure ParsedRecord where
  id : String
  index : Nat
  fields : List ParsedField
  raw : String
  type : String
  isValid : Bool
  errors : Option (List String) := none
  deriving DecidableEq, Repr

/-- `ParseMetadata` (`parseTime` is modelled as `0` everywhere). -/
structure ParseMetadata where
  totalRecords : Nat
  validRecords : Nat
  invalidRecords : Nat
  parseTime : Nat := 0
  fileSize : Option Nat := none
  encoding : Option String := none
  parserEngine : Option String := none
  deriving DecidableEq, Repr

/-- `ParsedData`. -/
structure ParsedData where
  id : String
  config : ParserConfig
  records : List ParsedRecord
  headers : List String
  metadata : ParseMetadata
  deriving DecidableEq, Repr

/-- `ParseProgress`. -/
structure ParseProgress where
  phase : String
  bytesProcessed : Nat
  totalBytes : Nat
  recordsProcessed : Nat
  percentage : Nat
  estimatedTimeRemaining : Option Nat := none
  message : Option String := none
  deriving DecidableEq, Repr

/-- `new Blob([data]).size`: the UTF-8 byte size of the string. -/
def blobSize (s : String) : Nat := s.utf8ByteSize

/-! ## Delimited (CSV) engine — `src/parsers/csvParser.ts` -/

namespace CsvParser

/-- A row as delivered by PapaParse: keyed by header names in header mode,
positional otherwise. -/
inductive PapaRowData where
  | objRow : List (String × String) → PapaRowData
  | arrRow : List String → PapaRowData
  deriving DecidableEq, Repr

/-- A PapaParse row-level error (only its `row` index and `message` matter to
the engine). -/
structure PapaError where
  row : Nat
  message : String
  deriving DecidableEq, Repr

/-- PapaParse result shape: `data`, `errors`, `meta.fields`. -/
structure PapaResult where
  data : List PapaRowData
  errors : List PapaError
  metaFields : Option (List String)
  deriving DecidableEq, Repr

/-- JS property access `row[header]` (string key): assoc lookup on an object
row; `undefined` (`none`) on an array row (headers are never numeric keys). -/
def rowGetStr (row : PapaRowData) (key : String) : Option String :=
  match row with
  | .objRow l => l.lookup key
  | .arrRow _ => none

/-- JS property access `row[fieldIndex]` (numeric key): positional get on an
array row; string-key lookup `row[String(i)]` on an object row. -/
def rowGetIdx (row : PapaRowData) (i : Nat) : Option String :=
  match row with
  | .objRow l => l.lookup (natToStr i)
  | .arrRow cells => cells.get? i

/-- `Object.values(row)` / the row itself, for re-joining the `raw` line. -/
def rowValues (row : PapaRowData) : List String :=
  match row with
  | .objRow l => l.map Prod.snd
  | .arrRow cells => cells

/-- Model of `Papa.parse(data, {delimiter, header, skipEmptyLines: true,
transformHeader: trim})`. The model splits lines on `/\r?\n/`, drops empty
lines, and splits cells on the (single-character) delimiter; quoting and
row-level error production of the real library are not exercised by any
verified property (the model reports no errors). -/
def papaParse (data : String) (delimiter : String) (header : Bool) : PapaResult :=
  let delimChar := (delimiter.data.headD ',')
  let lines := (jsSplitLines data).filter (fun l => l ≠ "")
  let rows := lines.map (jsSplitChar delimChar)
  if header then
    match rows with
    | [] => { data := [], errors := [], metaFields := some [] }
    | headerCells :: dataRows =>
      let fields := headerCells.map jsTrim
      { data := dataRows.map (fun cells => .objRow (fields.zip cells)),
        errors := [],
        metaFields := some fields }
  else
    { data := rows.map (fun cells => .arrRow cells), errors := [], metaFields := none }

/-- `inferType` of the plain delimited engine (`csvParser.ts`): empty/missing
⇒ null; case-insensitive true/false ⇒ boolean; numeric and not
whitespace-only ⇒ number; one of the three date shapes ⇒ date; else string. -/
def inferType (value : Option String) : String :=
  match value with
  | none => "null"
  | some s =>
    if s = "" then "null"
    else if jsToLower s = "true" ∨ jsToLower s = "false" then "boolean"
    else if jsIsNumeric s = true ∧ jsTrim s ≠ "" then "number"
    else if isDateShape s then "date"
    else "string"

/-- `config.delimiter || ','` (the empty string is falsy). -/
def effDelimiter (cfg : ParserConfig) : String :=
  match cfg.delimiter with
  | some d => if d = "" then "," else d
  | none => ","

/-- JS `,`-join. -/
def joinWith (sep : String) (parts : List String) : String :=
  match parts with
  | [] => ""
  | p :: rest => rest.foldl (fun acc q => acc ++ sep ++ q) p

/-- `parseCSV`. Note two faithful quirks: Papa's `header` option defaults via
`config.hasHeader ?? true`, while the per-field lookup and the record-kind
test use the raw truthiness of `config.hasHeader` (absent ⇒ falsy). -/
def parseCSV (data : String) (config : ParserConfig) : ParsedData :=
  let result := papaParse data (effDelimiter config) (config.hasHeader.getD true)
  let hasHeaderTruthy := config.hasHeader.getD false
  let firstRow := result.data.head?
  let headers : List String :=
    if hasHeaderTruthy then (result.metaFields.getD [])
    else
      match firstRow with
      | some (.arrRow cells) => (List.range cells.length).map
          (fun i => "Column " ++ natToStr (i + 1))
      | _ => []
  let records : List ParsedRecord := (result.data.enum).map fun (index, row) =>
    let fields : List ParsedField := (headers.enum).map fun (fieldIndex, header) =>
      let value := if hasHeaderTruthy then rowGetStr row header else rowGetIdx row fieldIndex
      { id := "field-" ++ natToStr index ++ "-" ++ natToStr fieldIndex,
        name := header,
        value := match value with | some v => .strV v | none => .nullV,
        type := inferType value,
        originalValue := value.getD "" }
    let isValid := !(result.errors.any (fun e => e.row = index))
    let errors := (result.errors.filter (fun e => e.row = index)).map (·.message)
    { id := "record-" ++ natToStr index,
      index := index,
      fields := fields,
      raw := joinWith (effDelimiter config) (rowValues row),
      type := if index = 0 ∧ hasHeaderTruthy then "header" else "data",
      isValid := isValid,
      errors := if errors.length > 0 then some errors else none }
  { id := "parsed-0",
    config := config,
    records := records,
    headers := headers,
    metadata :=
      { totalRecords := records.length,
        validRecords := (records.filter (·.isValid)).length,
        invalidRecords := (records.filter (fun r => !r.isValid)).length,
        fileSize := some (blobSize data) } }

end CsvParser

/-! ## Streaming delimited engine — type inference
(`src/parsers/streaming/csvStreamingParser.ts`) -/

namespace StreamingCsv

/-- `TRUE_VALUES` lookup set. -/
def trueValues : List String := ["true", "yes", "1", "on"]

/-- `FALSE_VALUES` lookup set. -/
def falseValues : List String := ["false", "no", "0", "off"]

/-- `inferTypeOptimized`: the streaming engine's per-cell type inference,
with its widened boolean lookup sets and its `length > 0` (rather than
non-blank) guard on the numeric test. -/
def inferTypeOptimized (value : Option String) : String :=
  match value with
  | none => "null"
  | some s =>
    if s = "" then "null"
    else if jsToLower s ∈ trueValues ∨ jsToLower s ∈ falseValues then "boolean"
    else if 0 < s.data.length ∧ jsIsNumeric s = true then "number"
    else if isDateShape s then "date"
    else "string"

end StreamingCsv

/-! ## Fixed-column engine — `src/parsers/fixedWidthParser.ts` -/

namespace FixedWidthParser

/-- `parseFieldValue(value, def)`: the already-trimmed substring, coerced by
the definition's semantic type. Empty input is `null`; numbers strip commas
then `parseFloat` (`NaN` ⇒ `null`); booleans accept case-insensitive
`true`/`1`/`y`; date and string pass through. -/
def parseFieldValue (value : String) (d : FieldDefinition) : JVal :=
  if value = "" then .nullV
  else
    match d.type with
    | "number" =>
      match jsParseFloat ⟨value.data.filter (· ≠ ',')⟩ with
      | none => .nullV
      | some q => .numV q
    | "boolean" =>
      .boolV (jsToLower value = "true" || value = "1" || jsToLower value = "y")
    | "date" => .strV value
    | _ => .strV value

/-- `determineRecordType(line, index, total)`: positional header/footer
defaults plus prefix patterns (`HDR`/`HEADER`/`H ` etc., case-insensitive
except `H `/`T `/`D `). -/
def determineRecordType (line : String) (index : Nat) (total : Nat) : String :=
  let up := jsToLower line
  if index = 0 || jsStartsWith up "hdr" || jsStartsWith up "header" || jsStartsWith line "H " then
    "header"
  else if index = total - 1 || jsStartsWith up "trl" || jsStartsWith up "trailer" ||
      jsStartsWith line "T " || jsStartsWith up "eof" then
    "footer"
  else if jsStartsWith up "txn" || jsStartsWith up "dtl" || jsStartsWith line "D " then
    "transaction"
  else "data"

/-- One step of the boundary-detection loop of `autoDetectFields`: walking the
columns, entering a gap when the space count reaches the 70% threshold and
closing a boundary when leaving it. `spaceCount.get! i >= threshold` with the
float threshold `n * 0.7` is compared exactly as `10 * count ≥ 7 * n` (the
float rounding of `0.7 n` never crosses an integer for `n ≤ 10`). -/
def boundaryLoop (spaceCount : List Nat) (n : Nat) :
    Nat → Bool → List Nat → List Nat
  | i, inSpace, acc =>
    match spaceCount with
    | [] => acc
    | cnt :: rest =>
      let inGap := 10 * cnt ≥ 7 * n
      if inGap ∧ ¬inSpace then boundaryLoop rest n (i + 1) true acc
      else if ¬inGap ∧ inSpace then boundaryLoop rest n (i + 1) false (acc ++ [i])
      else boundaryLoop rest n (i + 1) inSpace acc

/-- `autoDetectFields(lines)`: sample up to 10 lines, count spaces per
character column, derive field boundaries from ≥70% space columns, and name
the resulting all-string fields `Field N`. -/
def autoDetectFields (lines : List String) : List FieldDefinition :=
  match lines with
  | [] => []
  | _ =>
    let sampleLines := lines.take 10
    let maxLength := (sampleLines.map (fun l => l.data.length)).foldl max 0
    let spaceCount : List Nat := (List.range maxLength).map fun i =>
      (sampleLines.filter (fun l => l.data.get? i = some ' ')).length
    let boundaries : List Nat :=
      ([0] ++ boundaryLoop spaceCount sampleLines.length 0 false []) ++ [maxLength]
    (boundaries.zip boundaries.tail).enum.map fun (index, startEnd) =>
      { id := "field-" ++ natToStr index,
        name := "Field " ++ natToStr (index + 1),
        start := startEnd.1,
        length := startEnd.2 - startEnd.1,
        type := "string" }

/-- The record built for one line (the body of the `lines.map` in
`parseFixedWidth`): substring/trim/coerce each defined field, then flag every
required field whose coerced value is JS-falsy. -/
def fixedWidthRecord (fieldDefs : List FieldDefinition) (line : String)
    (index : Nat) (total : Nat) : ParsedRecord :=
  let fields : List ParsedField := fieldDefs.map fun d =>
    let rawValue := jsSubstring line d.start (d.start + d.length)
    { id := "field-" ++ natToStr index ++ "-" ++ d.id,
      name := d.name,
      value := parseFieldValue (jsTrim rawValue) d,
      type := d.type,
      originalValue := rawValue,
      position := some (d.start, d.start + d.length) }
  let errors : List String := fieldDefs.filterMap fun d =>
    if d.required ∧ jsFalsy (parseFieldValue (jsTrim (jsSubstring line d.start (d.start + d.length))) d) then
      some ("Required field \"" ++ d.name ++ "\" is empty")
    else none
  { id := "record-" ++ natToStr index,
    index := index,
    fields := fields,
    raw := line,
    type := determineRecordType line index total,
    isValid := errors.length = 0,
    errors := if errors.length > 0 then some errors else none }

/-- `parseFixedWidth(data, config)`, with the caller's post-call config made
explicit: the JS function body does `const fieldDefs = config.fieldDefinitions
|| []` and then `fieldDefs.push(...autoDetectFields(lines))` when the list is
empty — when the caller's config carries a *present but empty* array, that
`push` mutates the caller's array in place. The model returns
`(dataset, caller's config after the call)` to expose that effect. -/
def parseFixedWidth (data : String) (config : ParserConfig) :
    ParsedData × ParserConfig :=
  let lines := (jsSplitLines data).filter (fun l => jsTrim l ≠ "")
  let initialDefs := config.fieldDefinitions.getD []
  let fieldDefs :=
    if initialDefs.isEmpty then autoDetectFields lines else initialDefs
  -- the push lands in the caller's array exactly when that array exists and
  -- was empty (an empty array is truthy, so `|| []` does not replace it)
  let callerConfigAfter :=
    match config.fieldDefinitions with
    | some [] => { config with fieldDefinitions := some fieldDefs }
    | _ => config
  let records := lines.enum.map fun (index, line) =>
    fixedWidthRecord fieldDefs line index lines.length
  let headers := fieldDefs.map (·.name)
  ({ id := "parsed-0",
     config := { config with fieldDefinitions := some fieldDefs },
     records := records,
     headers := headers,
     metadata :=
       { totalRecords := records.length,
         validRecords := (records.filter (·.isValid)).length,
         invalidRecords := (records.filter (fun r => !r.isValid)).length,
         fileSize := some (blobSize data) } },
   callerConfigAfter)

end FixedWidthParser

/-! ## FIN (SWIFT) engine — `src/parsers/finParser.ts` -/

namespace FinParser

/-- A SWIFT subfield `/CODE/text`. -/
structure FINSubfield where
  code : String
  value : String
  deriving DecidableEq, Repr

/-- A FIN field: raw tag, display name, value, slash-delimited subfields. -/
structure FINField where
  tag : String
  name : String
  value : String
  subfields : List FINSubfield
  deriving DecidableEq, Repr

/-- A FIN block: type digit (as a string), name, raw content, parsed fields. -/
structure FINBlock where
  type : String
  name : String
  content : String
  fields : List FINField
  deriving DecidableEq, Repr

/-- `getBlockName`. -/
def getBlockName (t : String) : String :=
  match t with
  | "1" => "Basic Header"
  | "2" => "Application Header"
  | "3" => "User Header"
  | "4" => "Text Block (Message)"
  | "5" => "Trailer"
  | _ => "Block " ++ t

/-- `getBlockType`: record kind per block number. -/
def getBlockType (blockType : String) : String :=
  match blockType with
  | "1" | "2" | "3" => "header"
  | "4" => "transaction"
  | "5" => "footer"
  | _ => "data"

/-- `parseBlockFields(blockType, content)`: block 1 at fixed offsets (only
when the content has at least 25 characters); block 2 by its leading
direction character; all other blocks yield no structured fields. -/
def parseBlockFields (blockType : String) (content : String) : List FINField :=
  match blockType with
  | "1" =>
    if content.data.length ≥ 25 then
      [{ tag := "AppID", name := "Application ID",
         value := jsSubstring content 0 1, subfields := [] },
       { tag := "ServiceID", name := "Service ID",
         value := jsSubstring content 1 3, subfields := [] },
       { tag := "LT", name := "Logical Terminal",
         value := jsSubstring content 3 15, subfields := [] },
       { tag := "Session", name := "Session Number",
         value := jsSubstring content 15 19, subfields := [] },
       { tag := "Sequence", name := "Sequence Number",
         value := jsSubstring content 19 25, subfields := [] }]
    else []
  | "2" =>
    if jsStartsWith content "I" then
      [{ tag := "IO", name := "Input/Output", value := "Input", subfields := [] },
       { tag := "MT", name := "Message Type",
         value := jsSubstring content 1 4, subfields := [] },
       { tag := "Receiver", name := "Receiver BIC",
         value := jsSubstring content 4 16, subfields := [] }]
    else if jsStartsWith content "O" then
      [{ tag := "IO", name := "Input/Output", value := "Output", subfields := [] },
       { tag := "MT", name := "Message Type",
         value := jsSubstring content 1 4, subfields := [] },
       { tag := "InputTime", name := "Input Time",
         value := jsSubstring content 4 8, subfields := [] }]
    else []
  | _ => []

/-- One attempt of the block regex
`\{(\d):([^{}]*(?:\{[^{}]*\}[^{}]*)*)\}` just after an opening brace: a block
digit, a colon, then content that may contain fully braced one-level nested
groups, up to the closing brace. Returns the digit, the captured content and
the remaining input. -/
def tryBlockContent (fuel : Nat) (acc : List Char) (cs : List Char) :
    Option (List Char × List Char) :=
  match fuel with
  | 0 => none
  | fuel + 1 =>
    let plain := cs.takeWhile (fun c => c ≠ '{' && c ≠ '}')
    let rest := cs.dropWhile (fun c => c ≠ '{' && c ≠ '}')
    match rest with
    | '}' :: tail => some (acc ++ plain, tail)
    | '{' :: tail =>
      let inner := tail.takeWhile (fun c => c ≠ '{' && c ≠ '}')
      let afterInner := tail.dropWhile (fun c => c ≠ '{' && c ≠ '}')
      match afterInner with
      | '}' :: tail2 =>
        tryBlockContent fuel (acc ++ plain ++ '{' :: inner ++ ['}']) tail2
      | _ => none
    | _ => none

/-- Attempt to read a whole block at an opening brace: digit, colon,
balanced-one-level content, closing brace. -/
def tryBlock (cs : List Char) : Option (Char × String × List Char) :=
  match cs with
  | d :: ':' :: rest =>
    if isDigitChar d then
      match tryBlockContent (rest.length + 1) [] rest with
      | some (content, tail) => some (d, ⟨content⟩, tail)
      | none => none
    else none
  | _ => none

/-- The global scan of the block regex over the message. -/
def scanBlocks (fuel : Nat) (cs : List Char) : List (Char × String) :=
  match fuel, cs with
  | 0, _ => []
  | _, [] => []
  | fuel + 1, c :: rest =>
    if c = '{' then
      match tryBlock rest with
      | some (d, content, tail) => (d, content) :: scanBlocks fuel tail
      | none => scanBlocks fuel rest
    else scanBlocks fuel rest

/-- `parseFINBlocks(data)`. -/
def parseFINBlocks (data : String) : List FINBlock :=
  (scanBlocks data.data.length data.data).map fun (d, content) =>
    let blockType : String := ⟨[d]⟩
    { type := blockType,
      name := getBlockName blockType,
      content := content,
      fields := parseBlockFields blockType content }

/-- `parseSubfields(value)`: the global scan of `\/([A-Z0-9]+)\/([^/\n]*)`. -/
def parseSubfields (value : String) : List FINSubfield :=
  let isCode : Char → Bool := fun c => ('A' ≤ c && c ≤ 'Z') || isDigitChar c
  let rec go (fuel : Nat) (cs : List Char) : List FINSubfield :=
    match fuel, cs with
    | 0, _ => []
    | _, [] => []
    | fuel + 1, c :: rest =>
      if c = '/' then
        let code := rest.takeWhile isCode
        let afterCode := rest.dropWhile isCode
        match code, afterCode with
        | _ :: _, '/' :: tail =>
          let sub := tail.takeWhile (fun ch => ch ≠ '/' && ch ≠ '\n')
          let tail2 := tail.dropWhile (fun ch => ch ≠ '/' && ch ≠ '\n')
          { code := ⟨code⟩, value := jsTrim ⟨sub⟩ } :: go fuel tail2
        | _, _ => go fuel rest
      else go fuel rest
  go value.data.length value.data

/-- One attempt of the block-4 tag regex
`:(\d{2}[A-Z]?):([^:]*?)(?=\r?\n:|$)` at a `':'`: two digits, an optional
uppercase letter, a colon, then the shortest colon-free value whose end is
followed by a newline-and-colon or the end of the block. Returns the tag, the
raw value and the remainder (the lookahead is not consumed). -/
def tryTagValue (cs : List Char) : Option (String × String × List Char) :=
  match cs with
  | d1 :: d2 :: rest =>
    if isDigitChar d1 && isDigitChar d2 then
      let (tag, afterTag) : List Char × List Char :=
        match rest with
        | u :: rest2 =>
          if 'A' ≤ u && u ≤ 'Z' then ([d1, d2, u], rest2) else ([d1, d2], rest)
        | [] => ([d1, d2], rest)
      match afterTag with
      | ':' :: valStart =>
        let rec scanVal (fuel : Nat) (acc : List Char) (l : List Char) :
            Option (List Char × List Char) :=
          match fuel with
          | 0 => none
          | fuel + 1 =>
            match l with
            | [] => some (acc, [])
            | '\n' :: ':' :: _ => some (acc, l)
            | '\r' :: '\n' :: ':' :: _ => some (acc, l)
            | ':' :: _ => none
            | c :: tail => scanVal fuel (acc ++ [c]) tail
        match scanVal (valStart.length + 1) [] valStart with
        | some (v, remainder) => some (⟨tag⟩, ⟨v⟩, remainder)
        | none => none
      | _ => none
    else none
  | _ => none

/-- Raw tag/value pairs of the global block-4 scan. -/
def scanTags (fuel : Nat) (cs : List Char) : List (String × String) :=
  match fuel, cs with
  | 0, _ => []
  | _, [] => []
  | fuel + 1, c :: rest =>
    if c = ':' then
      match tryTagValue rest with
      | some (tag, v, remainder) => (tag, v) :: scanTags fuel remainder
      | none => scanTags fuel rest
    else scanTags fuel rest

/-- `getFINFieldName(tag)`: the static tag → display-name table with the
`Field <tag>` fallback. -/
def getFINFieldName (tag : String) : String :=
  (([("20", "Transaction Reference"), ("21", "Related Reference"),
     ("23B", "Bank Operation Code"), ("23E", "Instruction Code"),
     ("25", "Account Identification"), ("25A", "Account Identification"),
     ("26T", "Transaction Type Code"), ("28C", "Statement Number"),
     ("28D", "Statement Number"), ("32A", "Value Date/Currency/Amount"),
     ("32B", "Currency/Amount"), ("33B", "Currency/Original Amount"),
     ("36", "Exchange Rate"), ("50A", "Ordering Customer (BIC)"),
     ("50F", "Ordering Customer (Party)"),
     ("50K", "Ordering Customer (Name/Address)"), ("51A", "Sending Institution"),
     ("52A", "Ordering Institution (BIC)"),
     ("52D", "Ordering Institution (Name/Address)"),
     ("53A", "Sender Correspondent (BIC)"),
     ("53B", "Sender Correspondent (Location)"),
     ("54A", "Receiver Correspondent (BIC)"),
     ("56A", "Intermediary Institution (BIC)"),
     ("56D", "Intermediary Institution (Name/Address)"),
     ("57A", "Account With Institution (BIC)"),
     ("57D", "Account With Institution (Name/Address)"),
     ("59", "Beneficiary Customer"), ("59A", "Beneficiary Customer (BIC)"),
     ("59F", "Beneficiary Customer (Party)"), ("60F", "Opening Balance"),
     ("60M", "Opening Balance"), ("61", "Statement Line"),
     ("62F", "Closing Balance"), ("62M", "Closing Balance"),
     ("64", "Closing Available Balance"), ("65", "Forward Available Balance"),
     ("70", "Remittance Information"), ("71A", "Details of Charges"),
     ("71F", "Sender Charges"), ("71G", "Receiver Charges"),
     ("72", "Sender to Receiver Information"), ("77B", "Regulatory Reporting"),
     ("77T", "Envelope Contents"), ("79", "Narrative"),
     ("86", "Information to Account Owner")] : List (String × String)).lookup tag).getD
    ("Field " ++ tag)

/-- `parseBlock4Fields(content)`: every `:TAG:value` segment with its
trimmed value and extracted subfields. -/
def parseBlock4Fields (content : String) : List FINField :=
  (scanTags content.data.length content.data).map fun (tag, v) =>
    { tag := tag,
      name := getFINFieldName tag,
      value := jsTrim v,
      subfields := parseSubfields (jsTrim v) }

/-- `parseFIN(data, config)`: one record per block (blocks 1–3 header, 4
transaction, 5 footer), then block 4 expanded tag by tag — each tag's
subfields first as child records, then the tag's own transaction record. The
dataset headers are the tags seen, in insertion order. -/
def parseFIN (data : String) (config : ParserConfig) : ParsedData :=
  let blocks := parseFINBlocks data
  let addUnique : List String → String → List String := fun hs h =>
    if h ∈ hs then hs else hs ++ [h]
  let blockRecords : List ParsedRecord := blocks.enum.map fun (blockIndex, block) =>
    { id := "block-" ++ block.type ++ "-" ++ natToStr blockIndex,
      index := blockIndex,
      fields := block.fields.enum.map fun (fieldIndex, field) =>
        { id := "field-" ++ natToStr blockIndex ++ "-" ++ natToStr fieldIndex,
          name := field.name,
          value := .strV field.value,
          type := "string",
          originalValue := field.value },
      raw := block.content,
      type := getBlockType block.type,
      isValid := true }
  let headersAfterBlocks : List String :=
    blocks.foldl (fun hs block => block.fields.foldl (fun hs2 f => addUnique hs2 f.tag) hs) []
  let block4 := blocks.find? (fun b => b.type = "4")
  let (records, allHeaders) : List ParsedRecord × List String :=
    match block4 with
    | none => (blockRecords, headersAfterBlocks)
    | some b4 =>
      (parseBlock4Fields b4.content).enum.foldl
        (fun (acc : List ParsedRecord × List String) (p : Nat × FINField) =>
          let (recs, hs) := acc
          let (index, field) := p
          let hs2 := addUnique hs field.tag
          let withSubs := recs ++ field.subfields.enum.map fun (subIndex, subfield) =>
            { id := "subfield-" ++ natToStr index ++ "-" ++ natToStr subIndex,
              index := recs.length + subIndex,
              fields := [{ id := "subfield-" ++ natToStr index ++ "-" ++
                             natToStr subIndex ++ "-0",
                           name := field.tag ++ "/" ++ subfield.code,
                           value := .strV subfield.value,
                           type := "string",
                           originalValue := subfield.value }],
              raw := "/" ++ subfield.code ++ "/" ++ subfield.value,
              type := "data",
              isValid := true }
          (withSubs ++ [{ id := "message-field-" ++ natToStr index,
                          index := withSubs.length,
                          fields := [{ id := "msg-field-" ++ natToStr index,
                                       name := field.tag ++ " - " ++ field.name,
                                       value := .strV field.value,
                                       type := "string",
                                       originalValue := field.value }],
                          raw := ":" ++ field.tag ++ ":" ++ field.value,
                          type := "transaction",
                          isValid := true }], hs2))
        (blockRecords, headersAfterBlocks)
  { id := "parsed-0",
    config := config,
    records := records,
    headers := allHeaders,
    metadata :=
      { totalRecords := records.length,
        validRecords := (records.filter (·.isValid)).length,
        invalidRecords := (records.filter (fun r => !r.isValid)).length,
        fileSize := some (blobSize data) } }

end FinParser

/-! ## The shared engine-fatal error result

`createErrorResult(config, startTime, error)` appears with an identical body
in `iso20022Parser.ts` and in the custom engine: a single synthetic invalid
record carrying the message — but with `totalRecords: 0` in the metadata. -/

/-- `createErrorResult`. -/
def createErrorResult (config : ParserConfig) (error : String) : ParsedData :=
  { id := "parsed-0",
    config := config,
    records := [{ id := "error-record",
                  index := 0,
                  fields := [{ id := "error", name := "Error", value := .strV error,
                               type := "string", originalValue := error }],
                  raw := "",
                  type := "data",
                  isValid := false,
                  errors := some [error] }],
    headers := ["Error"],
    metadata := { totalRecords := 0, validRecords := 0, invalidRecords := 1 } }

/-! ## ISO 20022 (XML) engine — `src/parsers/iso20022Parser.ts` -/

/-- The generic tree produced by the external XML parser (`fast-xml-parser`
with `parseAttributeValue`/`parseTagValue`): primitives, arrays (for the
repeating-element allow-list) and objects, with attribute keys prefixed
`@_` and text content under `#text`. -/
inductive XmlVal where
  | prim : JVal → XmlVal
  | arr : List XmlVal → XmlVal
  | obj : List (String × XmlVal) → XmlVal

mutual

/-- Size of an XML tree (an upper bound on its nesting depth, used to seed
the fuel of `flattenXML`). -/
def xmlSize : XmlVal → Nat
  | .prim _ => 1
  | .arr l => 1 + xmlSizeList l
  | .obj l => 1 + xmlSizeEntries l

/-- Size of a list of XML trees. -/
def xmlSizeList : List XmlVal → Nat
  | [] => 0
  | x :: rest => xmlSize x + xmlSizeList rest

/-- Size of an entry list of XML trees. -/
def xmlSizeEntries : List (String × XmlVal) → Nat
  | [] => 0
  | e :: rest => xmlSize e.2 + xmlSizeEntries rest

end

/-- `Object.entries` on an XML node: object entries, or index-keyed entries
for an array (JS arrays are objects with index keys). -/
def xmlEntries : XmlVal → List (String × XmlVal)
  | .prim _ => []
  | .arr items => items.enum.map fun (i, v) => (natToStr i, v)
  | .obj entries => entries

/-- JS property read `node[key]`. -/
def xmlLookup (x : XmlVal) (key : String) : Option XmlVal :=
  (xmlEntries x).lookup key

/-- Decimal rendering of an integer. -/
def intToStr (i : Int) : String :=
  match i with
  | .ofNat n => natToStr n
  | .negSucc n => "-" ++ natToStr (n + 1)

/-- Rendering of a `JsNumber` as JS would print it (exact decimal; the float
artifacts of the real runtime are not modelled — no verified property
depends on number rendering). -/
def jsNumToString (x : JsNumber) : String :=
  let sign : String := if x.num < 0 then "-" else ""
  let a := x.num.natAbs
  let p := 10 ^ x.tenExp
  let ip := a / p
  let fp := a % p
  if fp = 0 then sign ++ natToStr ip
  else
    let digits := natDigitsAux (x.tenExp + 1) fp
    let padded := List.replicate (x.tenExp - digits.length) '0' ++ digits
    let trimmed := (padded.reverse.dropWhile (· = '0')).reverse
    sign ++ natToStr ip ++ "." ++ (⟨trimmed⟩ : String)

/-- `String(value)` on a primitive. -/
def jvalToString : JVal → String
  | .nullV => "null"
  | .strV s => s
  | .numV q => jsNumToString q
  | .boolV b => if b then "true" else "false"

/-- `typeof value` of a primitive value, as the engine's type-string. -/
def typeofStr : JVal → String
  | .numV _ => "number"
  | .boolV _ => "boolean"
  | .strV _ => "string"
  | .nullV => "object"

namespace Iso20022Parser

/-- `extractDocumentType(root)`: presence checks of the well-known top-level
child element names. -/
def extractDocumentType (root : XmlVal) : String :=
  let hasKey : String → Bool := fun k => (xmlLookup root k).isSome
  if hasKey "CstmrCdtTrfInitn" then "pain.001 - Customer Credit Transfer Initiation"
  else if hasKey "CstmrPmtStsRpt" then "pain.002 - Customer Payment Status Report"
  else if hasKey "CstmrDrctDbtInitn" then "pain.008 - Customer Direct Debit Initiation"
  else if hasKey "BkToCstmrAcctRpt" then "camt.052 - Bank to Customer Account Report"
  else if hasKey "BkToCstmrStmt" then "camt.053 - Bank to Customer Statement"
  else if hasKey "BkToCstmrDbtCdtNtfctn" then "camt.054 - Bank to Customer Debit Credit Notification"
  else if hasKey "FIToFIPmtStsRpt" then "pacs.002 - FI to FI Payment Status Report"
  else if hasKey "FIToFICstmrCdtTrf" then "pacs.008 - FI to FI Customer Credit Transfer"
  else "ISO 20022 Document"

/-- The `messageTypes` table (insertion order matters: the namespace scan
walks it with a substring test). -/
def messageTypes (root : XmlVal) : List (String × String) :=
  [("Document", extractDocumentType root),
   ("pain.001", "Customer Credit Transfer Initiation"),
   ("pain.002", "Customer Payment Status Report"),
   ("pain.008", "Customer Direct Debit Initiation"),
   ("camt.052", "Bank to Customer Account Report"),
   ("camt.053", "Bank to Customer Statement"),
   ("camt.054", "Bank to Customer Debit Credit Notification"),
   ("pacs.002", "FI to FI Payment Status Report"),
   ("pacs.003", "FI to FI Customer Direct Debit"),
   ("pacs.004", "Payment Return"),
   ("pacs.008", "FI to FI Customer Credit Transfer"),
   ("pacs.009", "FI Credit Transfer")]

/-- `detectMessageType(rootKey, root)`: namespace substring scan first, then
the table lookup on the root element name. -/
def detectMessageType (rootKey : String) (root : XmlVal) : String :=
  let table := messageTypes root
  let fallback := (table.lookup rootKey).getD "ISO 20022 Message"
  match xmlLookup root "@_xmlns" with
  | some (.prim (.strV s)) =>
    if s ≠ "" then
      match table.find? (fun kv => jsIncludes s kv.1) with
      | some kv => kv.2
      | none => fallback
    else fallback
  | _ => fallback

/-- `determineRecordType(path, depth)` of the XML flattening. -/
def determineRecordType (path : String) (depth : Nat) : String :=
  let headerPaths := ["GrpHdr", "MsgId", "CreDtTm", "NbOfTxs", "CtrlSum"]
  let transactionPaths := ["CdtTrfTxInf", "DrctDbtTxInf", "TxDtls", "Ntry", "NtryDtls"]
  if headerPaths.any (fun p => jsIncludes path p) then "header"
  else if transactionPaths.any (fun p => jsIncludes path p) then "transaction"
  else if depth ≤ 1 then "header"
  else "data"

/-- `humanizeISO20022Field(key, path)`: static display-name table with the
camelCase-to-spaced fallback. -/
def humanizeISO20022Field (key : String) : String :=
  match ([("MsgId", "Message ID"), ("CreDtTm", "Creation Date/Time"),
    ("NbOfTxs", "Number of Transactions"), ("CtrlSum", "Control Sum"),
    ("InitgPty", "Initiating Party"), ("Nm", "Name"),
    ("PmtInfId", "Payment Information ID"), ("PmtMtd", "Payment Method"),
    ("BtchBookg", "Batch Booking"), ("ReqdExctnDt", "Requested Execution Date"),
    ("Dbtr", "Debtor"), ("DbtrAcct", "Debtor Account"), ("DbtrAgt", "Debtor Agent"),
    ("CdtTrfTxInf", "Credit Transfer Transaction"), ("PmtId", "Payment ID"),
    ("EndToEndId", "End-to-End ID"), ("InstrId", "Instruction ID"),
    ("Amt", "Amount"), ("InstdAmt", "Instructed Amount"), ("Ccy", "Currency"),
    ("CdtrAgt", "Creditor Agent"), ("Cdtr", "Creditor"),
    ("CdtrAcct", "Creditor Account"), ("RmtInf", "Remittance Information"),
    ("Ustrd", "Unstructured"), ("Strd", "Structured"), ("IBAN", "IBAN"),
    ("BIC", "BIC"), ("BICFI", "BIC/FI"), ("Id", "ID"), ("Othr", "Other"),
    ("FinInstnId", "Financial Institution ID"), ("Bal", "Balance"), ("Tp", "Type"),
    ("CdOrPrtry", "Code or Proprietary"), ("Cd", "Code"), ("Prtry", "Proprietary"),
    ("Dt", "Date"), ("DtTm", "Date/Time"), ("Ntry", "Entry"),
    ("NtryDtls", "Entry Details"), ("TxDtls", "Transaction Details"),
    ("Refs", "References"), ("AcctSvcrRef", "Account Servicer Reference"),
    ("InstrRef", "Instruction Reference"), ("BookgDt", "Booking Date"),
    ("ValDt", "Value Date"), ("Sts", "Status"),
    ("CdtDbtInd", "Credit/Debit Indicator"), ("BkTxCd", "Bank Transaction Code"),
    ("Domn", "Domain"), ("Fmly", "Family"), ("SubFmlyCd", "Sub-Family Code"),
    ("AddtlNtryInf", "Additional Entry Info"),
    ("AddtlTxInf", "Additional Transaction Info")] : List (String × String)).lookup key with
  | some v => v
  | none =>
    -- `key.replace(/([A-Z])/g, ' $1').trim()`
    jsTrim ⟨key.data.foldr (fun c acc =>
      if 'A' ≤ c && c ≤ 'Z' then ' ' :: c :: acc else c :: acc) []⟩

/-- `flattenXML(obj, path, startIndex, depth)`: the recursive pre-order walk.
Attributes and text become fields; arrays expand per item with an indexed
path; objects recurse; a record is emitted for a level only when it collected
at least one field. The extra `fuel` argument (seeded with `sizeOf` of the
tree, which bounds the recursion depth) only makes the recursion structural;
it is never exhausted. -/
def flattenXML : Nat → XmlVal → String → Nat → Nat → List ParsedRecord
  | 0, _, _, _, _ => []
  | fuel + 1, x, path, startIndex, depth =>
    match x with
    | .prim _ => []
    | _ =>
      let step := fun (st : List ParsedField × List ParsedRecord × Nat)
          (entry : String × XmlVal) =>
        let (fields, nested, currentIndex) := st
        let (key, value) := entry
        let fieldPath := if path = "" then key else path ++ "." ++ key
        if jsStartsWith key "@_" then
          (fields ++ [{ id := "attr-" ++ natToStr currentIndex ++ "-" ++ key,
                        name := path ++ "[" ++ (⟨key.data.drop 2⟩ : String) ++ "]",
                        value := .strV (match value with
                          | .prim p => jvalToString p
                          | .arr _ => ""
                          | .obj _ => "[object Object]"),
                        type := (match value with
                          | .prim (.numV _) => "number"
                          | _ => "string"),
                        originalValue := match value with
                          | .prim p => jvalToString p
                          | .arr _ => ""
                          | .obj _ => "[object Object]" }], nested, currentIndex)
        else if key = "#text" then
          (fields ++ [{ id := "text-" ++ natToStr currentIndex,
                        name := if path = "" then "Text" else path,
                        value := .strV (match value with
                          | .prim p => jvalToString p
                          | .arr _ => ""
                          | .obj _ => "[object Object]"),
                        type := (match value with
                          | .prim (.numV _) => "number"
                          | _ => "string"),
                        originalValue := match value with
                          | .prim p => jvalToString p
                          | .arr _ => ""
                          | .obj _ => "[object Object]" }], nested, currentIndex)
        else
          match value with
          | .arr items =>
            let (nested2, currentIndex2) := items.enum.foldl
              (fun (acc : List ParsedRecord × Nat) (item : Nat × XmlVal) =>
                let itemRecords := flattenXML fuel item.2
                  (fieldPath ++ "[" ++ natToStr item.1 ++ "]") (acc.2 + 1) (depth + 1)
                (acc.1 ++ itemRecords, acc.2 + itemRecords.length))
              (nested, currentIndex)
            (fields, nested2, currentIndex2)
          | .obj _ =>
            let childRecords := flattenXML fuel value fieldPath (currentIndex + 1) (depth + 1)
            (fields, nested ++ childRecords, currentIndex + childRecords.length)
          | .prim p =>
            (fields ++ [{ id := "field-" ++ natToStr currentIndex ++ "-" ++ key,
                          name := humanizeISO20022Field key,
                          value := p,
                          type := typeofStr p,
                          originalValue := jvalToString p }], nested, currentIndex)
      let (fields, nested, _) := (xmlEntries x).foldl step ([], [], startIndex)
      (if fields.length > 0 then
        [{ id := "record-" ++ natToStr startIndex,
           index := startIndex,
           fields := fields,
           raw := if path = "" then "Root" else path,
           type := determineRecordType path depth,
           isValid := true }]
      else []) ++ nested

/-- `parseISO20022(data, config)`, with the external XML parser passed as a
function (`Except.error` models the `parser.parse` throw on malformed XML). -/
def parseISO20022 (xmlParse : String → Except String XmlVal)
    (data : String) (config : ParserConfig) : ParsedData :=
  match xmlParse data with
  | .error e => createErrorResult config ("XML Parse Error: " ++ e)
  | .ok xmlDoc =>
    match ((xmlEntries xmlDoc).map Prod.fst).find? (· ≠ "?xml") with
    | none => createErrorResult config "No root element found"
    | some rootKey =>
      let root := (xmlLookup xmlDoc rootKey).getD (.obj [])
      let messageType := detectMessageType rootKey root
      let headerRecord : ParsedRecord :=
        { id := "document-header",
          index := 0,
          fields := [{ id := "msg-type", name := "Message Type",
                       value := .strV messageType, type := "string",
                       originalValue := messageType },
                     { id := "root-element", name := "Root Element",
                       value := .strV rootKey, type := "string",
                       originalValue := rootKey }],
          raw := rootKey,
          type := "header",
          isValid := true }
      let flattened := flattenXML (xmlSize root) root "" 1 0
      let records := headerRecord :: flattened
      let addUnique : List String → String → List String := fun hs h =>
        if h ∈ hs then hs else hs ++ [h]
      let headers := flattened.foldl
        (fun hs r => r.fields.foldl (fun hs2 f => addUnique hs2 f.name) hs)
        ["Message Type", "Root Element"]
      { id := "parsed-0",
        config := config,
        records := records,
        headers := headers,
        metadata :=
          { totalRecords := records.length,
            validRecords := (records.filter (·.isValid)).length,
            invalidRecords := (records.filter (fun r => !r.isValid)).length,
            fileSize := some (blobSize data) } }

end Iso20022Parser

/-! ## Custom engine — `parseCustom` and helpers (`src/data/sampleData.ts`) -/

/-- Truthiness of an optional string option (`if (config.parseFunction)`,
`if (config.customPattern)`): present and non-empty. -/
def jsOptTruthy (o : Option String) : Bool :=
  match o with
  | some s => s ≠ ""
  | none => false

/-- A single result of `pattern.exec`: the full match, the positional capture
groups (`match.slice(1)`, `none` for an unmatched group) and, if the pattern
has named groups, the `match.groups` entries in declaration order. -/
structure RMatch where
  matched : String
  groups : List (Option String)
  named : Option (List (String × Option String))
  deriving DecidableEq, Repr

/-- The external `RegExp` engine: `compile pattern flags` either throws
(`Except.error` with the engine's message) or yields a global matcher
returning every match in order. -/
def RegexCompile : Type := String → String → Except String (String → List RMatch)

/-- A JSON value, as produced by the external `JSON.parse`. -/
inductive JsonVal where
  | nullJ : JsonVal
  | boolJ : Bool → JsonVal
  | numJ : JsNumber → JsonVal
  | strJ : String → JsonVal
  | arrJ : List JsonVal → JsonVal
  | objJ : List (String × JsonVal) → JsonVal

mutual

/-- Size of a JSON tree (fuel seed for the renderers below). -/
def jsonSize : JsonVal → Nat
  | .nullJ | .boolJ _ | .numJ _ | .strJ _ => 1
  | .arrJ l => 1 + jsonSizeList l
  | .objJ l => 1 + jsonSizeEntries l

/-- Size of a JSON list. -/
def jsonSizeList : List JsonVal → Nat
  | [] => 0
  | x :: rest => jsonSize x + jsonSizeList rest

/-- Size of a JSON entry list. -/
def jsonSizeEntries : List (String × JsonVal) → Nat
  | [] => 0
  | e :: rest => jsonSize e.2 + jsonSizeEntries rest

end

/-- `typeof value === 'object'` for a JSON value (`null`, arrays and objects). -/
def isJsObject : JsonVal → Bool
  | .nullJ | .arrJ _ | .objJ _ => true
  | _ => false

/-- The `JVal` of a non-object JSON value. -/
def jsonPrimToJVal : JsonVal → JVal
  | .strJ s => .strV s
  | .numJ q => .numV q
  | .boolJ b => .boolV b
  | _ => .nullV

/-- Model of `JSON.stringify` (string escaping is limited to quote and
backslash; no verified property depends on the rendering). -/
def jsonStringify : Nat → JsonVal → String
  | 0, _ => ""
  | _ + 1, .nullJ => "null"
  | _ + 1, .boolJ b => if b then "true" else "false"
  | _ + 1, .numJ q => jsNumToString q
  | _ + 1, .strJ s =>
    "\"" ++ (⟨s.data.foldr (fun c acc =>
      if c = '"' || c = '\\' then '\\' :: c :: acc else c :: acc) []⟩ : String) ++ "\""
  | fuel + 1, .arrJ l => "[" ++ joinStr "," (l.map (jsonStringify fuel)) ++ "]"
  | fuel + 1, .objJ l =>
    "\x7b" ++
      joinStr "," (l.map (fun e => jsonStringify fuel (.strJ e.1) ++ ":" ++ jsonStringify fuel e.2)) ++
      "\x7d"
where
  /-- comma-join -/
  joinStr (sep : String) : List String → String
    | [] => ""
    | p :: rest => rest.foldl (fun acc q => acc ++ sep ++ q) p

/-- Model of `String(value)` on a JSON value (`Array.prototype.toString`
joins element renderings with `','`, rendering `null` elements as empty). -/
def jsonToString : Nat → JsonVal → String
  | 0, _ => ""
  | _ + 1, .nullJ => "null"
  | _ + 1, .boolJ b => if b then "true" else "false"
  | _ + 1, .numJ q => jsNumToString q
  | _ + 1, .strJ s => s
  | fuel + 1, .arrJ l =>
    jsonStringify.joinStr ","
      (l.map (fun e => match e with
        | .nullJ => ""
        | other => jsonToString fuel other))
  | _ + 1, .objJ _ => "[object Object]"

namespace SampleData

/-- `inferType(value)` of the custom engine (`sampleData.ts`): note its
numeric test comes *before* its boolean test, unlike the delimited engine's. -/
def inferType (v : JVal) : String :=
  match v with
  | .nullV => "null"
  | .numV _ => "number"
  | .boolV _ => "boolean"
  | .strV s =>
    if jsIsNumeric s = true ∧ jsTrim s ≠ "" then "number"
    else if jsToLower s = "true" ∨ jsToLower s = "false" then "boolean"
    else "string"

/-- `value ?? null` on an optional capture-group value. -/
def optToJVal (o : Option String) : JVal :=
  match o with
  | some s => .strV s
  | none => .nullV

/-- `parseWithPattern(data, config, startTime)`: compile the configured
pattern with flags `gm`; a compilation throw becomes the single-record
`Pattern error` result; otherwise every match becomes a valid record whose
fields are the named groups (or `Group N` for positional groups). -/
def parseWithPattern (regexCompile : RegexCompile) (data : String)
    (config : ParserConfig) : ParsedData :=
  match regexCompile (config.customPattern.getD "") "gm" with
  | .error e => createErrorResult config ("Pattern error: " ++ e)
  | .ok matcher =>
    let ms := matcher data
    let addUnique : List String → String → List String := fun hs h =>
      if h ∈ hs then hs else hs ++ [h]
    let records : List ParsedRecord := ms.enum.map fun (index, m) =>
      let fields : List ParsedField :=
        match m.named with
        | some groups => groups.enum.map fun (fieldIndex, nv) =>
          { id := "field-" ++ natToStr index ++ "-" ++ natToStr fieldIndex,
            name := nv.1,
            value := optToJVal nv.2,
            type := inferType (optToJVal nv.2),
            originalValue := nv.2.getD "" }
        | none => m.groups.enum.map fun (fieldIndex, v) =>
          { id := "field-" ++ natToStr index ++ "-" ++ natToStr fieldIndex,
            name := "Group " ++ natToStr (fieldIndex + 1),
            value := optToJVal v,
            type := inferType (optToJVal v),
            originalValue := v.getD "" }
      { id := "record-" ++ natToStr index,
        index := index,
        fields := fields,
        raw := m.matched,
        type := "data",
        isValid := true }
    let headers := records.foldl
      (fun hs r => r.fields.foldl (fun hs2 f => addUnique hs2 f.name) hs) []
    { id := "parsed-0",
      config := config,
      records := records,
      headers := headers,
      metadata :=
        { totalRecords := records.length,
          validRecords := records.length,
          invalidRecords := 0,
          fileSize := some (blobSize data) } }

/-- Is `c` in the JS `\w` class? -/
def isWordChar (c : Char) : Bool :=
  ('a' ≤ c && c ≤ 'z') || ('A' ≤ c && c ≤ 'Z') || isDigitChar c || c = '_'

/-- Does the line match `^[\w\s]+<sep>.+$`? (The candidate split point is
forced: the maximal `[\w\s]` prefix must be followed by the separator and a
non-empty rest.) -/
def kvLineTest (sep : Char) (line : String) : Bool :=
  let m := line.data.takeWhile (fun c => isWordChar c || jsWhitespaceChar c)
  let rest := line.data.dropWhile (fun c => isWordChar c || jsWhitespaceChar c)
  match rest with
  | c :: tail => !m.isEmpty && c = sep && !tail.isEmpty
  | [] => false

/-- `detectStructure(lines)`: JSON-lines when every sampled non-empty line
parses as JSON, else key-value on `':'` or `'='` when over half the sampled
lines match the key-value shape, else plain. -/
def detectStructure (jsonParse : String → Option JsonVal) (lines : List String) :
    String × Option Char :=
  let sampleLines := (lines.filter (fun l => jsTrim l ≠ "")).take 10
  if sampleLines.all (fun l => (jsonParse l).isSome) then ("json-lines", none)
  else if 2 * (sampleLines.filter (kvLineTest ':')).length > sampleLines.length then
    ("key-value", some ':')
  else if 2 * (sampleLines.filter (kvLineTest '=')).length > sampleLines.length then
    ("key-value", some '=')
  else ("plain", none)

/-- `parseKeyValuePairs(line, separator)`: the dynamically-built regex
`([^<sep>]+)<sep>\s*([^<sep>]+?)(?=\s+[^<sep>]+<sep>|$)` run globally via the
external engine, with the simple-split fallback when it yields no pair. (For
the separators actually used, `':'` and `'='`, the pattern always compiles;
a compilation failure yields no regex pairs and falls back.) -/
def parseKeyValuePairs (regexCompile : RegexCompile) (line : String)
    (sep : Char) : List (String × String) :=
  let sepStr : String := ⟨[sep]⟩
  let pattern :=
    "([^" ++ sepStr ++ "]+)" ++ sepStr ++ "\\s*([^" ++ sepStr ++
      "]+?)(?=\\s+[^" ++ sepStr ++ "]+" ++ sepStr ++ "|$)"
  let pairs :=
    match regexCompile pattern "g" with
    | .ok matcher => (matcher line).map fun m =>
      (jsTrim (((m.groups.get? 0).getD none).getD ""),
       jsTrim (((m.groups.get? 1).getD none).getD ""))
    | .error _ => []
  if pairs.isEmpty then
    match jsSplitChar sep line with
    | k :: rest =>
      if rest.length ≥ 1 then [(jsTrim k, jsTrim (CsvParser.joinWith sepStr rest))]
      else []
    | [] => []
  else pairs

/-- `determineLineType(line, index, total)` of the generic fallback. -/
def determineLineType (line : String) (index : Nat) (total : Nat) : String :=
  let lowerLine := jsToLower line
  if index = 0 || jsIncludes lowerLine "header" || jsStartsWith lowerLine "#" then
    "header"
  else if index = total - 1 || jsIncludes lowerLine "footer" ||
      jsIncludes lowerLine "trailer" then
    "footer"
  else if jsIncludes lowerLine "transaction" || jsIncludes lowerLine "txn" then
    "transaction"
  else "data"

/-- `Object.entries` on a parsed JSON value (index/character entries for
arrays and strings, as in JS). -/
def jsonEntries : JsonVal → List (String × JsonVal)
  | .objJ l => l
  | .arrJ l => l.enum.map fun (i, v) => (natToStr i, v)
  | .strJ s => s.data.enum.map fun (i, c) => (natToStr i, .strJ ⟨[c]⟩)
  | _ => []

/-- `parseGeneric(data, config, startTime)`: the structural fallback —
JSON-lines, key-value or opaque `Line N` records, keyed off
`detectStructure`; empty lines are skipped but keep their line index. -/
def parseGeneric (regexCompile : RegexCompile)
    (jsonParse : String → Option JsonVal) (data : String)
    (config : ParserConfig) : ParsedData :=
  let lines := jsSplitLines data
  let struct := detectStructure jsonParse lines
  let step := fun (st : List ParsedRecord × List String) (p : Nat × String) =>
    let (records, headers) := st
    let (index, line) := p
    if jsTrim line = "" then st
    else
      let (fields, headers2) : List ParsedField × List String :=
        if struct.1 = "key-value" then
          let pairs := parseKeyValuePairs regexCompile line (struct.2.getD ':')
          pairs.enum.foldl
            (fun (acc : List ParsedField × List String) (q : Nat × (String × String)) =>
              let (fieldIndex, (key, value)) := q
              (acc.1 ++ [{ id := "field-" ++ natToStr index ++ "-" ++ natToStr fieldIndex,
                           name := key,
                           value := .strV value,
                           type := inferType (.strV value),
                           originalValue := value }],
               if key ∈ acc.2 then acc.2 else acc.2 ++ [key]))
            ([], headers)
        else if struct.1 = "json-lines" then
          match jsonParse line with
          | some obj =>
            (jsonEntries obj).enum.foldl
              (fun (acc : List ParsedField × List String) (q : Nat × (String × JsonVal)) =>
                let (fieldIndex, (key, value)) := q
                (acc.1 ++ [{ id := "field-" ++ natToStr index ++ "-" ++ natToStr fieldIndex,
                             name := key,
                             value := if isJsObject value then
                                 .strV (jsonStringify (jsonSize value) value)
                               else jsonPrimToJVal value,
                             type := if isJsObject value then "string"
                               else inferType (jsonPrimToJVal value),
                             originalValue := jsonToString (jsonSize value) value }],
                 if key ∈ acc.2 then acc.2 else acc.2 ++ [key]))
              ([], headers)
          | none =>
            ([{ id := "field-" ++ natToStr index ++ "-0", name := "Raw",
                value := .strV line, type := "string", originalValue := line }],
             if "Raw" ∈ headers then headers else headers ++ ["Raw"])
        else
          ([{ id := "field-" ++ natToStr index ++ "-0",
              name := "Line " ++ natToStr (index + 1),
              value := .strV line, type := "string", originalValue := line }],
           if ("Line " ++ natToStr (index + 1)) ∈ headers then headers
           else headers ++ ["Line " ++ natToStr (index + 1)])
      (records ++ [{ id := "record-" ++ natToStr index,
                     index := index,
                     fields := fields,
                     raw := line,
                     type := determineLineType line index lines.length,
                     isValid := true }], headers2)
  let (records, headers) := lines.enum.foldl step ([], [])
  { id := "parsed-0",
    config := config,
    records := records,
    headers := headers,
    metadata :=
      { totalRecords := records.length,
        validRecords := records.length,
        invalidRecords := 0,
        fileSize := some (blobSize data) } }

/-- The external evaluation of a caller-supplied parse routine
(`new Function('data', 'config', ...)` plus the call): `Except.error` models
a throw, `Except.ok none` a result rejected by `isValidParsedData`,
`Except.ok (some r)` a well-shaped result. -/
def EvalRoutine : Type := String → String → ParserConfig → Except String (Option ParsedData)

/-- The pattern-or-generic tail of `parseCustom` (reached when no usable
routine result was produced). -/
def parseCustomTail (regexCompile : RegexCompile)
    (jsonParse : String → Option JsonVal) (data : String)
    (config : ParserConfig) : ParsedData :=
  if jsOptTruthy config.customPattern then parseWithPattern regexCompile data config
  else parseGeneric regexCompile jsonParse data config

/-- `parseCustom(data, config)`: three-tier resolution — executable routine
(failures caught into the single-record error result, ill-shaped results
falling through), then pattern mode, then the generic structural fallback. -/
def parseCustom (regexCompile : RegexCompile) (evalRoutine : EvalRoutine)
    (jsonParse : String → Option JsonVal) (data : String)
    (config : ParserConfig) : ParsedData :=
  if jsOptTruthy config.parseFunction then
    match evalRoutine (config.parseFunction.getD "") data config with
    | .ok (some result) =>
      { result with metadata := { result.metadata with parseTime := 0 } }
    | .ok none => parseCustomTail regexCompile jsonParse data config
    | .error e => createErrorResult config ("Custom parser error: " ++ e)
  else parseCustomTail regexCompile jsonParse data config

end SampleData

/-! ## Format detector and dispatcher — `src/parsers/index.ts` -/

/-- The bundle of external JS-runtime behaviours the engines depend on. -/
structure JsEnv where
  xmlParse : String → Except String XmlVal
  regexCompile : RegexCompile
  evalRoutine : SampleData.EvalRoutine
  jsonParse : String → Option JsonVal

namespace Parsers

/-- The `/\{4:\s*\n?:20:/` test: somewhere in the text, `{4:` followed by a
whitespace run and then `:20:` (the optional `\n` is subsumed by `\s*`; since
`:` is not whitespace, only the maximal whitespace run can precede it). -/
def finBlock4Test (s : String) : Bool :=
  let rec go (fuel : Nat) (cs : List Char) : Bool :=
    match fuel, cs with
    | 0, _ => false
    | _, [] => false
    | fuel + 1, c :: rest =>
      (c = '{' &&
        (match rest with
         | '4' :: ':' :: after =>
           [':', '2', '0', ':'].isPrefixOf (after.dropWhile jsWhitespaceChar)
         | _ => false)) ||
      go fuel rest
  go s.data.length s.data

/-- The XML check of `detectParserType`: the trimmed text starts with the
prolog or one of the known root-element names. -/
def xmlStartTest (t : String) : Bool :=
  jsStartsWith t "<?xml" || jsStartsWith t "<Document" || jsStartsWith t "<pain" ||
    jsStartsWith t "<camt" || jsStartsWith t "<pacs"

/-- The SWIFT check: a leading basic-header block marker or the
block-4-with-field-20 pattern anywhere. -/
def finStartTest (t : String) : Bool :=
  jsStartsWith t "\x7b1:" || finBlock4Test t

/-- The delimiter check: the first line holds at least two commas,
semicolons, tabs or pipes. -/
def delimiterCountTest (t : String) : Bool :=
  let firstLine := (jsSplitChar '\n' t).headD ""
  countChar firstLine ',' ≥ 2 || countChar firstLine ';' ≥ 2 ||
    countChar firstLine '\t' ≥ 2 || countChar firstLine '|' ≥ 2

/-- The fixed-width check: at least 3 non-empty lines whose first 10 lengths
all satisfy `Math.abs(l - avg) < 5` with `avg > 20`. The float comparisons
are expressed exactly over integers as `|l·n − Σ| < 5n` and `Σ > 20n` (for
`n ≤ 10` samples the float rounding of `Σ/n` cannot cross these integer
thresholds). -/
def uniformLengthTest (t : String) : Bool :=
  let lines := (jsSplitChar '\n' t).filter (fun l => l.data.length > 0)
  if lines.length ≥ 3 then
    let lengths := (lines.take 10).map (fun l => l.data.length)
    let n := lengths.length
    let total := lengths.foldl (· + ·) 0
    lengths.all (fun l => (((l * n : Nat) : Int) - ((total : Nat) : Int)).natAbs < 5 * n) &&
      20 * n < total
  else false

/-- `detectParserType(data)`: the ordered format cascade of the source (the
four tests above are its four guard expressions, in order; every fall-through
ends at `custom`). -/
def detectParserType (data : String) : String :=
  let trimmedData := jsTrim data
  if xmlStartTest trimmedData then "iso20022"
  else if finStartTest trimmedData then "fin"
  else if delimiterCountTest trimmedData then "csv"
  else if uniformLengthTest trimmedData then "fixed-width"
  else "custom"

/-- `suggestDelimiter(data)`: over the first 5 lines, the candidate in
priority order comma, semicolon, tab, pipe with the strictly greatest count
(comma is the default). -/
def suggestDelimiter (data : String) : String :=
  let firstLines := CsvParser.joinWith "\n" ((jsSplitChar '\n' data).take 5)
  let step := fun (best : String × Nat) (cand : Char) =>
    let count := countChar firstLines cand
    if count > best.2 then ((⟨[cand]⟩ : String), count) else best
  ([',', ';', '\t', '|'].foldl step (",", 0)).1

/-- `parse(data, config)`: dispatch on the config's format tag, defaulting to
the CSV engine for unknown tags. -/
def parse (env : JsEnv) (data : String) (config : ParserConfig) : ParsedData :=
  if config.type = "csv" then CsvParser.parseCSV data config
  else if config.type = "fixed-width" then (FixedWidthParser.parseFixedWidth data config).1
  else if config.type = "fin" then FinParser.parseFIN data config
  else if config.type = "iso20022" then Iso20022Parser.parseISO20022 env.xmlParse data config
  else if config.type = "custom" then
    SampleData.parseCustom env.regexCompile env.evalRoutine env.jsonParse data config
  else CsvParser.parseCSV data config

end Parsers

/-! ## Streaming delimited engine — `parseCSVStreaming`
(`src/parsers/streaming/csvStreamingParser.ts`)

PapaParse drives the `chunk` callback; the model takes the library's chunk
deliveries (`results.data`, `results.errors`, `results.meta.cursor` and the
`performance.now()` reading at the callback) as an input list, the
cancellation predicate as a per-chunk-index function, and collects the
`onProgress` emissions. A cancelled run rejects (`Except.error "Cancelled"`,
the `parser.abort()` + `reject` path); a completed run returns the emitted
events (ending with the final 100% event, emitted before `resolve`) together
with the dataset. -/

namespace StreamingCsv

/-- One PapaParse chunk delivery. -/
structure Chunk where
  rows : List CsvParser.PapaRowData
  errors : List CsvParser.PapaError
  metaFields : Option (List String)
  cursor : Nat
  now : Nat
  deriving DecidableEq, Repr

/-- The mutable locals of `parseCSVStreaming`, plus the emitted events. -/
structure StreamState where
  records : List ParsedRecord
  headers : List String
  bytesProcessed : Nat
  recordIndex : Nat
  validCount : Nat
  invalidCount : Nat
  lastProgressUpdate : Nat
  events : List ParseProgress
  deriving DecidableEq, Repr

/-- `Math.round((bytesProcessed / totalBytes) * 100)` (exact rational
rounding; the zero-total case, `NaN` in JS, is modelled as `0`). -/
def roundPct (b t : Nat) : Nat :=
  if t = 0 then 0 else (200 * b + t) / (2 * t)

/-- `Math.round(remainingBytes / (bytesProcessed / elapsedSeconds))`
(integer approximation; no verified property depends on the ETA). -/
def etaEstimate (b t now : Nat) : Nat :=
  if b = 0 then 0 else ((t - b) * now) / (1000 * b)

/-- The body of the `chunk` callback (after the cancellation check): capture
headers on the first chunk, turn each row into a record with
`inferTypeOptimized` typing, update the byte cursor, and emit a throttled
progress event when more than 100 ms passed since the last one. -/
def processChunk (config : ParserConfig) (totalBytes : Nat) (st : StreamState)
    (c : Chunk) : StreamState :=
  let hasHeaderTruthy := config.hasHeader.getD false
  let headers :=
    if st.headers.isEmpty then
      match c.metaFields with
      | some f => f
      | none => st.headers
    else st.headers
  let rowStep := fun (acc : List ParsedRecord × Nat × Nat × Nat)
      (row : CsvParser.PapaRowData) =>
    let (recs, recordIndex, validCount, invalidCount) := acc
    let fields : List ParsedField := headers.enum.map fun (fieldIndex, header) =>
      let value := if hasHeaderTruthy then CsvParser.rowGetStr row header
        else CsvParser.rowGetIdx row fieldIndex
      { id := "field-" ++ natToStr recordIndex ++ "-" ++ natToStr fieldIndex,
        name := header,
        value := match value with | some v => .strV v | none => .nullV,
        type := inferTypeOptimized value,
        originalValue := value.getD "" }
    let hasErrors := c.errors.any (fun e => e.row = recordIndex)
    let rec2 : ParsedRecord :=
      { id := "record-" ++ natToStr recordIndex,
        index := recordIndex,
        fields := fields,
        raw := CsvParser.joinWith (CsvParser.effDelimiter config) (CsvParser.rowValues row),
        type := if recordIndex = 0 ∧ hasHeaderTruthy then "header" else "data",
        isValid := !hasErrors,
        errors := if hasErrors then
            some ((c.errors.filter (fun e => e.row = recordIndex)).map (·.message))
          else none }
    (recs ++ [rec2], recordIndex + 1,
     (if hasErrors then validCount else validCount + 1),
     (if hasErrors then invalidCount + 1 else invalidCount))
  let acc :=
    c.rows.foldl rowStep (st.records, st.recordIndex, st.validCount, st.invalidCount)
  let records := acc.1
  let recordIndex := acc.2.1
  let validCount := acc.2.2.1
  let invalidCount := acc.2.2.2
  let bytesProcessed := c.cursor
  if st.lastProgressUpdate + 100 < c.now then
    { records := records, headers := headers,
      bytesProcessed := bytesProcessed, recordIndex := recordIndex,
      validCount := validCount, invalidCount := invalidCount,
      lastProgressUpdate := c.now,
      events := st.events ++
        [{ phase := "parsing",
           bytesProcessed := bytesProcessed,
           totalBytes := totalBytes,
           recordsProcessed := recordIndex,
           percentage := roundPct bytesProcessed totalBytes,
           estimatedTimeRemaining := some (etaEstimate bytesProcessed totalBytes c.now),
           message := some ("Parsed " ++ natToStr recordIndex ++ " records...") }] }
  else
    { records := records, headers := headers,
      bytesProcessed := bytesProcessed, recordIndex := recordIndex,
      validCount := validCount, invalidCount := invalidCount,
      lastProgressUpdate := st.lastProgressUpdate,
      events := st.events }

/-- Run the chunk callback over the deliveries, checking the cancellation
predicate at every chunk boundary. -/
def runChunks (config : ParserConfig) (totalBytes : Nat)
    (isCancelled : Nat → Bool) : Nat → StreamState → List Chunk →
    Except String StreamState
  | _, st, [] => .ok st
  | i, st, c :: rest =>
    if isCancelled i then .error "Cancelled"
    else runChunks config totalBytes isCancelled (i + 1)
      (processChunk config totalBytes st c) rest

/-- The initial state of a run. -/
def initState : StreamState :=
  { records := [], headers := [], bytesProcessed := 0, recordIndex := 0,
    validCount := 0, invalidCount := 0, lastProgressUpdate := 0, events := [] }

/-- `parseCSVStreaming(data, config, onProgress, isCancelled)`. On
completion, the final 100% `complete` event is emitted (appended to the
event list) before the dataset is resolved. -/
def parseCSVStreaming (data : String) (config : ParserConfig)
    (chunks : List Chunk) (isCancelled : Nat → Bool) :
    Except String (List ParseProgress × ParsedData) :=
  let totalBytes := blobSize data
  match runChunks config totalBytes isCancelled 0 initState chunks with
  | .error e => .error e
  | .ok st =>
    let finalEvent : ParseProgress :=
      { phase := "complete",
        bytesProcessed := totalBytes,
        totalBytes := totalBytes,
        recordsProcessed := st.recordIndex,
        percentage := 100,
        message := some "Parsing complete" }
    .ok (st.events ++ [finalEvent],
      { id := "parsed-0",
        config := config,
        records := st.records,
        headers := st.headers,
        metadata :=
          { totalRecords := st.records.length,
            validRecords := st.validCount,
            invalidRecords := st.invalidCount,
            fileSize := some totalBytes,
            parserEngine := some "js",
            encoding := config.encoding } })

end StreamingCsv

/-! ## Parser service — `src/parsers/ParserService.ts`

The service-side state is the module-level `pendingRequests` map (modelled as
the list of pending ids; the stored `resolve`/`reject`/`onProgress` callbacks
are modelled by emitting a `Delivery` naming the id instead of invoking
them), plus the `workerReady`/`wasmAvailable` flags read by `getStatus`. -/

namespace ParserService

/-- Worker-to-service message types handled by `handleWorkerMessage`. -/
inductive WMsgType where
  | ready : WMsgType
  | progress : WMsgType
  | result : Bool → WMsgType
  | error : WMsgType
  deriving DecidableEq, Repr

/-- A worker message: type plus request id. -/
structure WMsg where
  type : WMsgType
  id : String
  deriving DecidableEq, Repr

/-- What the service does to the caller of a request: resolve its promise,
reject it, or invoke its progress callback. -/
inductive Delivery where
  | resolved : String → Delivery
  | rejected : String → Delivery
  | progressed : String → Delivery
  deriving DecidableEq, Repr

/-- The request id a delivery is addressed to. -/
def Delivery.reqId : Delivery → String
  | .resolved i => i
  | .rejected i => i
  | .progressed i => i

/-- The service-side shared state. -/
structure ServiceState where
  pendingRequests : List String
  workerReady : Bool
  wasmAvailable : Bool
  deriving DecidableEq, Repr

/-- `handleWorkerMessage(event)`: look the id up in the pending map; bail out
when absent (unless the message is the `ready` handshake); `progress` invokes
the stored callback, `result` resolves or rejects and deletes the entry,
`error` rejects and deletes the entry. The optional-chaining `request?.`
calls are exactly the `if request` guards. -/
def handleWorkerMessage (st : ServiceState) (m : WMsg) :
    ServiceState × Option Delivery :=
  let request := st.pendingRequests.contains m.id
  if request = false ∧ m.type ≠ .ready then (st, none)
  else
    match m.type with
    | .ready => (st, none)
    | .progress => (st, if request then some (.progressed m.id) else none)
    | .result success =>
      ({ st with pendingRequests := st.pendingRequests.filter (· ≠ m.id) },
       if request then some (if success then .resolved m.id else .rejected m.id)
       else none)
    | .error =>
      ({ st with pendingRequests := st.pendingRequests.filter (· ≠ m.id) },
       if request then some (.rejected m.id) else none)

/-- `controller.cancel()` for a request id: posts `cancel` to the worker (no
service-side effect) and deletes the id from the pending map at once. -/
def cancelRequest (requestId : String) (st : ServiceState) : ServiceState :=
  { st with pendingRequests := st.pendingRequests.filter (· ≠ requestId) }

/-- `ParserService.getStatus()`: worker readiness, WASM availability and the
pending-request count (`pendingRequests.size`). -/
def getStatus (st : ServiceState) : Bool × Bool × Nat :=
  (st.workerReady, st.wasmAvailable, st.pendingRequests.length)

/-- Replay a sequence of worker messages through `handleWorkerMessage`,
collecting the deliveries made to callers. -/
def runMessages (st : ServiceState) : List WMsg → ServiceState × List Delivery
  | [] => (st, [])
  | m :: rest =>
    let step := handleWorkerMessage st m
    let tail := runMessages step.1 rest
    (tail.1, (match step.2 with | some d => [d] | none => []) ++ tail.2)

end ParserService

/-! ## Claim-side definitions for the format-detection cascade (§4.2) -/

namespace FormatSpec

/-- Clause (1) of the spec's cascade: the trimmed text begins with an XML
prolog or a payment/statement root-element name. -/
def isoCond (t : String) : Bool :=
  jsStartsWith t "<?xml" || jsStartsWith t "<Document" || jsStartsWith t "<pain" ||
    jsStartsWith t "<camt" || jsStartsWith t "<pacs"

/-- Clause (2): the text begins with a SWIFT basic-header block marker, or
contains a block-4-with-field-20 pattern. -/
def finCond (t : String) : Bool :=
  jsStartsWith t "\x7b1:" || Parsers.finBlock4Test t

/-- Clause (3): the first line contains at least 2 occurrences of comma,
semicolon, tab, or pipe. -/
def delimitedCond (t : String) : Bool :=
  let firstLine := (jsSplitChar '\n' t).headD ""
  countChar firstLine ',' ≥ 2 || countChar firstLine ';' ≥ 2 ||
    countChar firstLine '\t' ≥ 2 || countChar firstLine '|' ≥ 2

/-- Clause (4): at least 3 non-empty lines exist and, over the first 10 of
them, every line length lies within ±5 characters of their mean (the open
band `|len − mean| < 5`, written exactly as `|len·n − Σ| < 5n` over
integers) with that mean exceeding 20 (`Σ > 20n`). -/
def fixedCond (t : String) : Bool :=
  let lines := (jsSplitChar '\n' t).filter (fun l => l.data.length > 0)
  let lengths := (lines.take 10).map (fun l => l.data.length)
  let n := lengths.length
  let total := lengths.foldl (· + ·) 0
  decide (lines.length ≥ 3) &&
    (lengths.all (fun l => (((l * n : Nat) : Int) - ((total : Nat) : Int)).natAbs < 5 * n) &&
      20 * n < total)

/-- The spec's first-match-wins cascade, written from the claim's wording. -/
def detectFormatCascade (data : String) : String :=
  let t := jsTrim data
  if isoCond t then "iso20022"
  else if finCond t then "fin"
  else if delimitedCond t then "csv"
  else if fixedCond t then "fixed-width"
  else "custom"

/-- Five delimiter-free lines of the same length (> 20 characters): the
claim's concrete fixed-column classification example. -/
def fiveUniformLines : String :=
  CsvParser.joinWith "\n" (List.replicate 5 "ABCDEFGHIJKLMNOPQRSTUVWXY")

end FormatSpec

/-! ## Theorems for the frozen claims -/

/-- Nested conditionals collapse to a conjunction when both fallbacks agree. -/
theorem if_if_and (b1 b2 : Bool) (x y : String) :
    (if b1 then (if b2 then x else y) else y) = (if b1 && b2 then x else y) := by
  cases b1 <;> cases b2 <;> rfl

set_option maxRecDepth 8192 in
/-- C5: `detectFormat` (the source's `detectParserType`) is total,
deterministic (it is a pure Lean function), and equals the spec's
first-match-wins cascade — iso20022, then fin, then delimited, then
fixed-column (±5-of-mean band, mean > 20, ≥ 3 non-empty lines), then custom;
in particular 5 equal-length (> 20 chars) delimiter-free lines classify as
fixed-column, and the result is always one of the five tags. -/
theorem c5_detect_format_cascade :
    (∀ data : String, Parsers.detectParserType data = FormatSpec.detectFormatCascade data) ∧
    Parsers.detectParserType FormatSpec.fiveUniformLines = "fixed-width" ∧
    (∀ data : String, Parsers.detectParserType data ∈
      ["iso20022", "fin", "csv", "fixed-width", "custom"]) := by
  have hfixed : ∀ t : String, Parsers.uniformLengthTest t = FormatSpec.fixedCond t := by
    intro t
    unfold Parsers.uniformLengthTest FormatSpec.fixedCond
    by_cases h : (jsSplitChar '\n' t |>.filter (fun l => l.data.length > 0)).length ≥ 3
    · simp [h]
    · simp [h]
  have hmain : ∀ data : String,
      Parsers.detectParserType data = FormatSpec.detectFormatCascade data := by
    intro data
    simp only [Parsers.detectParserType, FormatSpec.detectFormatCascade, hfixed]
    rfl
  refine ⟨hmain, ?_, ?_⟩
  · rw [hmain]
    decide
  · intro data
    rw [hmain]
    simp only [FormatSpec.detectFormatCascade]
    split_ifs <;> simp

/-- C4 counterexample: the streaming engine's type inference is not
extensionally equal to the plain delimited engine's — `"yes"` and `"1"` are
`boolean` for the streaming variant but `string`/`number` for the plain one,
and a whitespace-only cell is `number` for the streaming variant but `string`
for the plain one. -/
theorem c4_counterexample :
    StreamingCsv.inferTypeOptimized (some "yes") = "boolean" ∧
    CsvParser.inferType (some "yes") = "string" ∧
    StreamingCsv.inferTypeOptimized (some "1") = "boolean" ∧
    CsvParser.inferType (some "1") = "number" ∧
    StreamingCsv.inferTypeOptimized (some " ") = "number" ∧
    CsvParser.inferType (some " ") = "string" := by
  decide

/-- C4 (amended): the two type-inference routines agree on every cell value
except (a) values whose lowercase form is one of the streaming engine's extra
boolean tokens `yes`, `no`, `1`, `0`, `on`, `off`, and (b) non-empty
whitespace-only values (where the plain engine's non-blank guard suppresses
the numeric classification). -/
theorem c4_inference_agreement (v : Option String)
    (h : ∀ s, v = some s →
      jsToLower s ∉ (["yes", "no", "1", "0", "on", "off"] : List String) ∧
      ¬(s ≠ "" ∧ jsTrim s = "")) :
    StreamingCsv.inferTypeOptimized v = CsvParser.inferType v := by
  cases v with
  | none => rfl
  | some s =>
    obtain ⟨hex, hws⟩ := h s rfl
    by_cases hs : s = ""
    · simp [StreamingCsv.inferTypeOptimized, CsvParser.inferType, hs]
    · have htrim : jsTrim s ≠ "" := fun hc => hws ⟨hs, hc⟩
      have hlen : 0 < s.data.length := by
        rcases s with ⟨cs⟩
        cases cs with
        | nil => exact absurd rfl hs
        | cons a l => simp
      simp only [StreamingCsv.inferTypeOptimized, CsvParser.inferType, if_neg hs]
      by_cases hb : jsToLower s = "true" ∨ jsToLower s = "false"
      · have hmem : jsToLower s ∈ StreamingCsv.trueValues ∨
            jsToLower s ∈ StreamingCsv.falseValues := by
          rcases hb with h' | h' <;>
            simp [StreamingCsv.trueValues, StreamingCsv.falseValues, h']
        rw [if_pos hmem, if_pos hb]
      · have hmem : ¬(jsToLower s ∈ StreamingCsv.trueValues ∨
            jsToLower s ∈ StreamingCsv.falseValues) := by
          intro hc
          simp only [StreamingCsv.trueValues, StreamingCsv.falseValues,
            List.mem_cons, List.mem_singleton, List.not_mem_nil, or_false] at hc
          simp only [List.mem_cons, List.mem_singleton, List.not_mem_nil,
            or_false] at hex
          rcases hc with (h' | h' | h' | h') | (h' | h' | h' | h') <;>
            first
              | exact hb (Or.inl h')
              | exact hb (Or.inr h')
              | exact hex (by simp [h'])
        rw [if_neg hmem, if_neg hb]
        by_cases hn : jsIsNumeric s = true
        · rw [if_pos ⟨hlen, hn⟩, if_pos ⟨hn, htrim⟩]
        · rw [if_neg (fun hc : 0 < s.data.length ∧ jsIsNumeric s = true => hn hc.2)]
          rw [if_neg (fun hc : jsIsNumeric s = true ∧ jsTrim s ≠ "" => hn hc.1)]

/-- C4 witness: the agreement theorem applied at a concrete ordinary value. -/
theorem c4_inference_agreement_witness :
    StreamingCsv.inferTypeOptimized (some "12.5") = CsvParser.inferType (some "12.5") :=
  c4_inference_agreement (some "12.5")
    (fun s hs => by cases hs; exact ⟨by decide, by decide⟩)

/-- The config of the C1 evaluation. -/
def c1cfg : ParserConfig := { type := "iso20022", name := "iso-cfg" }

/-- C1 (code bug): the engine-fatal error result breaks the dataset
invariant. `createErrorResult` — used by the ISO 20022 engine on unparseable
XML and by the custom engine on routine/pattern failures — returns one
synthetic invalid record but sets `metadata.totalRecords` to `0`, so
`totalRecords ≠ records.length` and
`validRecords + invalidRecords ≠ totalRecords`, contradicting the claimed
`invalidRecords == totalRecords == 1`. The final conjunct evaluates the ISO
engine on malformed XML (the external parser throwing, as `fast-xml-parser`
does on `"<invalid xml content"`). -/
theorem c1_error_result_breaks_invariant (cfg : ParserConfig) (msg : String) :
    (createErrorResult cfg msg).records.length = 1 ∧
    (createErrorResult cfg msg).metadata.totalRecords = 0 ∧
    (createErrorResult cfg msg).metadata.validRecords = 0 ∧
    (createErrorResult cfg msg).metadata.invalidRecords = 1 ∧
    (createErrorResult cfg msg).metadata.totalRecords ≠
      (createErrorResult cfg msg).records.length ∧
    (createErrorResult cfg msg).metadata.validRecords +
        (createErrorResult cfg msg).metadata.invalidRecords ≠
      (createErrorResult cfg msg).metadata.totalRecords ∧
    Iso20022Parser.parseISO20022 (fun _ => .error "unclosed tag")
        "<invalid xml content" c1cfg =
      createErrorResult c1cfg "XML Parse Error: unclosed tag" := by
  refine ⟨rfl, rfl, rfl, rfl, by simp [createErrorResult], by simp [createErrorResult], ?_⟩
  rfl

/-- The caller-owned config of the C2 evaluation: a *present but empty*
field-definition list. -/
def c2cfg : ParserConfig :=
  { type := "fixed-width", name := "caller", fieldDefinitions := some [] }

/-- The input of the C2 evaluation (three uniform lines with a space gap at
column 2, so auto-detection finds two fields). -/
def c2data : String := "AB CD\nEF GH\nIJ KL"

/-- C2 (code bug): the fixed-column engine mutates the caller's config when
invoked with a present-but-empty `fieldDefinitions` array — the auto-detected
definitions are pushed into the caller's array (because `config.fieldDefinitions
|| []` keeps a truthy empty array), while with the member absent the caller's
config is untouched. The pair returned by the model is
`(dataset, caller's config after the call)`. -/
theorem c2_fixed_width_mutates_empty_config :
    c2cfg.fieldDefinitions = some [] ∧
    (FixedWidthParser.parseFixedWidth c2data c2cfg).2.fieldDefinitions =
      some [{ id := "field-0", name := "Field 1", start := 0, length := 3,
              type := "string" },
            { id := "field-1", name := "Field 2", start := 3, length := 2,
              type := "string" }] ∧
    (FixedWidthParser.parseFixedWidth c2data c2cfg).2 ≠ c2cfg ∧
    (FixedWidthParser.parseFixedWidth c2data
        { type := "fixed-width", name := "caller" }).2 =
      { type := "fixed-width", name := "caller" } := by
  refine ⟨rfl, by decide, by decide, by decide⟩

/-- The required number field of the C3 counterexample. -/
def c3def : FieldDefinition :=
  { id := "f1", name := "ID", start := 0, length := 1, type := "number",
    required := true }

/-- C3 counterexample: a record whose only required field has the non-empty
trimmed value `"0"` — which type-coerces to the number `0` — is *invalid*
(with a `Required field "ID" is empty` error), because the engine tests the
coerced value with JS falsiness; the claim says such a record is valid. -/
theorem c3_counterexample :
    jsTrim (jsSubstring "0" 0 1) = "0" ∧
    FixedWidthParser.parseFieldValue "0" c3def = .numV { num := 0, tenExp := 0 } ∧
    ((FixedWidthParser.parseFixedWidth "0"
        { type := "fixed-width", name := "t", fieldDefinitions := some [c3def] }).1.records.map
      (fun r => (r.isValid, r.errors))) =
      [(false, some ["Required field \"ID\" is empty"])] := by
  decide

/-- The optional error list stores the accumulated messages exactly when
there are any. -/
theorem errorsOpt_getD (l : List String) :
    (if l.length > 0 then some l else none).getD [] = l := by
  cases l <;> simp

/-- A `filterMap` over an if-some-none function is non-empty exactly when
some element satisfies the condition. -/
theorem filterMap_if_ne_nil {α : Type} (l : List α) (p : α → Prop)
    [DecidablePred p] (g : α → String) :
    l.filterMap (fun a => if p a then some (g a) else none) ≠ [] ↔ ∃ a ∈ l, p a := by
  rw [Ne, List.filterMap_eq_nil_iff]
  constructor
  · intro h
    by_contra hc
    push_neg at hc
    exact h fun a ha => if_neg (hc a ha)
  · rintro ⟨a, ha, hpa⟩ h
    have := h a ha
    rw [if_pos hpa] at this
    cases this

/-- C3 (amended): in the fixed-column engine a record is invalid exactly when
some required field definition's *coerced* value is JS-falsy (`null`, the
number `0`, `false`, or empty) — an empty trimmed substring is one such case
(it coerces to `null`), so blank required fields are flagged with an error
naming them, but required number fields reading `0` or unparseable text and
required boolean fields coercing to `false` are flagged too. The error list
carries exactly one `Required field "<name>" is empty` string per such field,
in definition order. -/
theorem c3_required_field_validation (defs : List FieldDefinition)
    (line : String) (index total : Nat) :
    ((FixedWidthParser.fixedWidthRecord defs line index total).isValid = false ↔
      ∃ d ∈ defs, d.required = true ∧
        jsFalsy (FixedWidthParser.parseFieldValue
          (jsTrim (jsSubstring line d.start (d.start + d.length))) d) = true) ∧
    ((FixedWidthParser.fixedWidthRecord defs line index total).errors.getD [] =
      defs.filterMap fun d =>
        if d.required = true ∧
            jsFalsy (FixedWidthParser.parseFieldValue
              (jsTrim (jsSubstring line d.start (d.start + d.length))) d) = true then
          some ("Required field \"" ++ d.name ++ "\" is empty")
        else none) ∧
    (∀ d ∈ defs, d.required = true →
      jsTrim (jsSubstring line d.start (d.start + d.length)) = "" →
      (FixedWidthParser.fixedWidthRecord defs line index total).isValid = false ∧
        ("Required field \"" ++ d.name ++ "\" is empty") ∈
          (FixedWidthParser.fixedWidthRecord defs line index total).errors.getD []) := by
  have hvalid : (FixedWidthParser.fixedWidthRecord defs line index total).isValid = false ↔
      ∃ d ∈ defs, d.required = true ∧
        jsFalsy (FixedWidthParser.parseFieldValue
          (jsTrim (jsSubstring line d.start (d.start + d.length))) d) = true := by
    simp only [FixedWidthParser.fixedWidthRecord, decide_eq_false_iff_not,
      ← List.length_eq_zero, Ne]
    rw [show (¬ (List.filterMap _ defs).length = 0) ↔
        (List.filterMap (fun d : FieldDefinition =>
          if d.required = true ∧
              jsFalsy (FixedWidthParser.parseFieldValue
                (jsTrim (jsSubstring line d.start (d.start + d.length))) d) = true then
            some ("Required field \"" ++ d.name ++ "\" is empty")
          else none) defs ≠ []) from by rw [Ne, List.length_eq_zero]]
    exact filterMap_if_ne_nil defs _ _
  have herr : (FixedWidthParser.fixedWidthRecord defs line index total).errors.getD [] =
      defs.filterMap fun d =>
        if d.required = true ∧
            jsFalsy (FixedWidthParser.parseFieldValue
              (jsTrim (jsSubstring line d.start (d.start + d.length))) d) = true then
          some ("Required field \"" ++ d.name ++ "\" is empty")
        else none := by
    simp only [FixedWidthParser.fixedWidthRecord]
    exact errorsOpt_getD _
  refine ⟨hvalid, herr, ?_⟩
  intro d hd hreq htrim
  have hfalsy : jsFalsy (FixedWidthParser.parseFieldValue
      (jsTrim (jsSubstring line d.start (d.start + d.length))) d) = true := by
    rw [htrim]
    rfl
  refine ⟨hvalid.mpr ⟨d, hd, hreq, hfalsy⟩, ?_⟩
  rw [herr]
  exact List.mem_filterMap.mpr ⟨d, hd, by rw [if_pos ⟨hreq, hfalsy⟩]⟩

/-- C3 witness: the amended validation theorem applied to a blank required
`ID` field — `isValid == false` with an error mentioning `ID` — matching the
spec's own concrete example. -/
theorem c3_required_field_validation_witness :
    (FixedWidthParser.fixedWidthRecord
      [{ id := "f1", name := "ID", start := 0, length := 5, type := "string",
         required := true }] "     Jane Smith" 0 1).isValid = false ∧
    ("Required field \"ID\" is empty") ∈
      (FixedWidthParser.fixedWidthRecord
        [{ id := "f1", name := "ID", start := 0, length := 5, type := "string",
           required := true }] "     Jane Smith" 0 1).errors.getD [] :=
  (c3_required_field_validation
      [{ id := "f1", name := "ID", start := 0, length := 5, type := "string",
         required := true }] "     Jane Smith" 0 1).2.2
    { id := "f1", name := "ID", start := 0, length := 5, type := "string",
      required := true }
    (by decide) (by decide) (by decide)

/-- C6: in the custom engine's pattern mode, whenever the configured pattern
fails to compile (the external `RegExp` construction throws with message
`e`), the returned dataset is exactly the single-record error result: one
record, `isValid == false`, with the non-empty error list
`["Pattern error: " ++ e]` explaining the compilation failure — and no
match-derived records. (The empty pattern is excluded: JS treats it as
falsy, skipping pattern mode; it always compiles anyway.) -/
theorem c6_pattern_compile_failure (regexCompile : RegexCompile)
    (evalRoutine : SampleData.EvalRoutine) (jsonParse : String → Option JsonVal)
    (data : String) (cfg : ParserConfig) (p e : String)
    (hfn : jsOptTruthy cfg.parseFunction = false)
    (hpat : cfg.customPattern = some p) (hp : p ≠ "")
    (hcompile : regexCompile p "gm" = .error e) :
    SampleData.parseCustom regexCompile evalRoutine jsonParse data cfg =
      createErrorResult cfg ("Pattern error: " ++ e) ∧
    (SampleData.parseCustom regexCompile evalRoutine jsonParse data cfg).records.length = 1 ∧
    (∀ r ∈ (SampleData.parseCustom regexCompile evalRoutine jsonParse data cfg).records,
      r.isValid = false ∧ r.errors = some ["Pattern error: " ++ e] ∧
        r.errors.getD [] ≠ []) := by
  have htruthy : jsOptTruthy cfg.customPattern = true := by
    rw [hpat]
    simpa [jsOptTruthy] using hp
  have hres : SampleData.parseCustom regexCompile evalRoutine jsonParse data cfg =
      createErrorResult cfg ("Pattern error: " ++ e) := by
    unfold SampleData.parseCustom
    rw [hfn]
    simp only [Bool.false_eq_true, if_false]
    unfold SampleData.parseCustomTail
    rw [htruthy]
    simp only [if_true]
    unfold SampleData.parseWithPattern
    rw [hpat]
    simp only [Option.getD_some]
    rw [hcompile]
  refine ⟨hres, by rw [hres]; rfl, ?_⟩
  rw [hres]
  intro r hr
  simp only [createErrorResult, List.mem_singleton] at hr
  subst hr
  exact ⟨rfl, rfl, by simp⟩

/-- The failing compile used by the C6 witness (an unbalanced bracket, as
`new RegExp('[invalid(regex')` throws). -/
def c6failCompile : RegexCompile :=
  fun _ _ => .error "Invalid regular expression: missing ]"

/-- C6 witness: the compile-failure theorem at the concrete pattern
`[invalid(regex` over the input `test data`. -/
theorem c6_pattern_compile_failure_witness :
    SampleData.parseCustom c6failCompile (fun _ _ _ => .ok none) (fun _ => none)
        "test data" { type := "custom", name := "t", customPattern := some "[invalid(regex" } =
      createErrorResult { type := "custom", name := "t", customPattern := some "[invalid(regex" }
        ("Pattern error: " ++ "Invalid regular expression: missing ]") :=
  (c6_pattern_compile_failure c6failCompile (fun _ _ _ => .ok none) (fun _ => none)
    "test data" { type := "custom", name := "t", customPattern := some "[invalid(regex" }
    "[invalid(regex" "Invalid regular expression: missing ]"
    (by decide) rfl (by decide) rfl).1

/-- C7: the FIN engine parses block-1 content at fixed offsets exactly when
it has at least 25 characters — five fields: application id `[0,1)`, service
id `[1,3)`, logical terminal `[3,15)`, session number `[15,19)`, sequence
number `[19,25)` — and nothing otherwise; block-2 content starting with `I`
yields direction `Input`, message type `[1,4)` and receiver `[4,16)`. In
particular `"F01BANKBEBBAXXX0000000000"` gives `Application ID = "F"` and
`"I103BANKDEFFXXXXN"` gives `Message Type = "103"`. -/
theorem c7_fin_block_offsets :
    (∀ content : String, 25 ≤ content.data.length →
      FinParser.parseBlockFields "1" content =
        [{ tag := "AppID", name := "Application ID",
           value := jsSubstring content 0 1, subfields := [] },
         { tag := "ServiceID", name := "Service ID",
           value := jsSubstring content 1 3, subfields := [] },
         { tag := "LT", name := "Logical Terminal",
           value := jsSubstring content 3 15, subfields := [] },
         { tag := "Session", name := "Session Number",
           value := jsSubstring content 15 19, subfields := [] },
         { tag := "Sequence", name := "Sequence Number",
           value := jsSubstring content 19 25, subfields := [] }]) ∧
    (∀ content : String, content.data.length < 25 →
      FinParser.parseBlockFields "1" content = []) ∧
    (∀ content : String, jsStartsWith content "I" = true →
      FinParser.parseBlockFields "2" content =
        [{ tag := "IO", name := "Input/Output", value := "Input", subfields := [] },
         { tag := "MT", name := "Message Type",
           value := jsSubstring content 1 4, subfields := [] },
         { tag := "Receiver", name := "Receiver BIC",
           value := jsSubstring content 4 16, subfields := [] }]) ∧
    ((FinParser.parseBlockFields "1" "F01BANKBEBBAXXX0000000000").map
        (fun f => (f.name, f.value)) =
      [("Application ID", "F"), ("Service ID", "01"),
       ("Logical Terminal", "BANKBEBBAXXX"), ("Session Number", "0000"),
       ("Sequence Number", "000000")]) ∧
    ((FinParser.parseBlockFields "2" "I103BANKDEFFXXXXN").map
        (fun f => (f.name, f.value)) =
      [("Input/Output", "Input"), ("Message Type", "103"),
       ("Receiver BIC", "BANKDEFFXXXX")]) := by
  refine ⟨?_, ?_, ?_, by decide, by decide⟩
  · intro content h
    show (if content.data.length ≥ 25 then _ else []) = _
    rw [if_pos h]
  · intro content h
    show (if content.data.length ≥ 25 then _ else []) = _
    rw [if_neg (by omega)]
  · intro content h
    show (if jsStartsWith content "I" = true then _ else _) = _
    rw [if_pos h]

/-- C7 witness: the offsets theorem applied at the spec's two concrete block
contents. -/
theorem c7_fin_block_offsets_witness :
    FinParser.parseBlockFields "1" "F01BANKBEBBAXXX0000000000" =
      [{ tag := "AppID", name := "Application ID", value := "F", subfields := [] },
       { tag := "ServiceID", name := "Service ID", value := "01", subfields := [] },
       { tag := "LT", name := "Logical Terminal", value := "BANKBEBBAXXX", subfields := [] },
       { tag := "Session", name := "Session Number", value := "0000", subfields := [] },
       { tag := "Sequence", name := "Sequence Number", value := "000000", subfields := [] }] ∧
    FinParser.parseBlockFields "2" "I103BANKDEFFXXXXN" =
      [{ tag := "IO", name := "Input/Output", value := "Input", subfields := [] },
       { tag := "MT", name := "Message Type", value := "103", subfields := [] },
       { tag := "Receiver", name := "Receiver BIC", value := "BANKDEFFXXXX", subfields := [] }] := by
  refine ⟨?_, ?_⟩
  · rw [c7_fin_block_offsets.1 "F01BANKBEBBAXXX0000000000" (by decide)]
    decide
  · rw [c7_fin_block_offsets.2.2.1 "I103BANKDEFFXXXXN" (by decide)]
    decide

/-- An inert environment for dispatcher evaluations (the externals are never
reached on the CSV path). -/
def inertEnv : JsEnv :=
  { xmlParse := fun _ => .error "unused",
    regexCompile := fun _ _ => .error "unused",
    evalRoutine := fun _ _ _ => .ok none,
    jsonParse := fun _ => none }

/-- C10: the top-level dispatcher never fails on an unknown format tag — for
every input and every config whose tag is none of `csv`, `fixed-width`,
`fin`, `iso20022`, `custom`, it returns exactly the CSV engine's result. -/
theorem c10_unknown_tag_falls_back_to_csv (env : JsEnv) (data : String)
    (cfg : ParserConfig)
    (h1 : cfg.type ≠ "csv") (h2 : cfg.type ≠ "fixed-width")
    (h3 : cfg.type ≠ "fin") (h4 : cfg.type ≠ "iso20022")
    (h5 : cfg.type ≠ "custom") :
    Parsers.parse env data cfg = CsvParser.parseCSV data cfg := by
  unfold Parsers.parse
  rw [if_neg h1, if_neg h2, if_neg h3, if_neg h4, if_neg h5]

/-- C10 witness: the fallback theorem at the unknown tag `xml` over a small
delimited input. -/
theorem c10_unknown_tag_falls_back_to_csv_witness :
    Parsers.parse inertEnv "a,b,c\n1,2,3" { type := "xml", name := "t" } =
      CsvParser.parseCSV "a,b,c\n1,2,3" { type := "xml", name := "t" } :=
  c10_unknown_tag_falls_back_to_csv inertEnv "a,b,c\n1,2,3"
    { type := "xml", name := "t" }
    (by decide) (by decide) (by decide) (by decide) (by decide)

namespace StreamingCsv

/-- The chunk step always advances the byte cursor to the chunk's cursor. -/
theorem processChunk_bytesProcessed (config : ParserConfig) (totalBytes : Nat)
    (st : StreamState) (c : Chunk) :
    (processChunk config totalBytes st c).bytesProcessed = c.cursor := by
  simp only [processChunk]
  split <;> rfl

/-- The chunk step either emits nothing, or appends exactly one event whose
`bytesProcessed` is the chunk's cursor. -/
theorem processChunk_events (config : ParserConfig) (totalBytes : Nat)
    (st : StreamState) (c : Chunk) :
    (processChunk config totalBytes st c).events = st.events ∨
      ∃ ev, (processChunk config totalBytes st c).events = st.events ++ [ev] ∧
        ev.bytesProcessed = c.cursor := by
  simp only [processChunk]
  split
  · exact Or.inr ⟨_, rfl, rfl⟩
  · exact Or.inl rfl

/-- Invariant of the chunk loop: with non-decreasing, in-bounds cursors and
no cancellation, the loop completes, the emitted events have chained
non-decreasing `bytesProcessed` values all bounded by the final byte count,
and that count stays within the total. -/
theorem runChunks_progress (config : ParserConfig) (totalBytes : Nat)
    (isCancelled : Nat → Bool) (hnc : ∀ j, isCancelled j = false) :
    ∀ (chunks : List Chunk) (i : Nat) (st : StreamState),
      List.Chain' (· ≤ ·) (chunks.map Chunk.cursor) →
      (∀ c ∈ chunks, c.cursor ≤ totalBytes) →
      (∀ c, chunks.head? = some c → st.bytesProcessed ≤ c.cursor) →
      st.bytesProcessed ≤ totalBytes →
      List.Chain' (fun a b => a.bytesProcessed ≤ b.bytesProcessed) st.events →
      (∀ e ∈ st.events, e.bytesProcessed ≤ st.bytesProcessed) →
      ∃ st', runChunks config totalBytes isCancelled i st chunks = .ok st' ∧
        List.Chain' (fun a b => a.bytesProcessed ≤ b.bytesProcessed) st'.events ∧
        (∀ e ∈ st'.events, e.bytesProcessed ≤ st'.bytesProcessed) ∧
        st'.bytesProcessed ≤ totalBytes
  | [], _, st => by
    intro _ _ _ hb hc he
    exact ⟨st, rfl, hc, he, hb⟩
  | c :: rest, i, st => by
    intro hmono hbound hhead hb hchain hev
    have hcur : st.bytesProcessed ≤ c.cursor := hhead c rfl
    have hcle : c.cursor ≤ totalBytes := hbound c (List.mem_cons_self _ _)
    have hbytes1 : (processChunk config totalBytes st c).bytesProcessed = c.cursor :=
      processChunk_bytesProcessed config totalBytes st c
    have hstep : List.Chain' (fun a b => a.bytesProcessed ≤ b.bytesProcessed)
        (processChunk config totalBytes st c).events ∧
        (∀ e ∈ (processChunk config totalBytes st c).events,
          e.bytesProcessed ≤ (processChunk config totalBytes st c).bytesProcessed) := by
      rcases processChunk_events config totalBytes st c with heq | ⟨ev, heq, hevb⟩
      · rw [heq, hbytes1]
        exact ⟨hchain, fun e he => (hev e he).trans hcur⟩
      · rw [heq, hbytes1]
        constructor
        · refine List.chain'_append.mpr ⟨hchain, List.chain'_singleton ev, ?_⟩
          intro x hx y hy
          simp only [List.head?_cons, Option.mem_def, Option.some.injEq] at hy
          subst hy
          rw [hevb]
          exact (hev x (List.mem_of_getLast?_eq_some hx)).trans hcur
        · intro e he
          rcases List.mem_append.mp he with h | h
          · exact (hev e h).trans hcur
          · simp only [List.mem_singleton] at h
            subst h
            rw [hevb]
    have hmono' : List.Chain' (· ≤ ·) (rest.map Chunk.cursor) :=
      (List.chain'_cons'.mp hmono).2
    have hhead' : ∀ c', rest.head? = some c' →
        (processChunk config totalBytes st c).bytesProcessed ≤ c'.cursor := by
      intro c' hc'
      rw [hbytes1]
      have := (List.chain'_cons'.mp hmono).1 c'.cursor
      apply this
      rw [List.head?_map, hc']
      rfl
    obtain ⟨st', hrun, h1, h2, h3⟩ :=
      runChunks_progress config totalBytes isCancelled hnc rest (i + 1)
        (processChunk config totalBytes st c) hmono'
        (fun c' hc' => hbound c' (List.mem_cons_of_mem _ hc'))
        hhead' (hbytes1 ▸ hcle) hstep.1 hstep.2
    refine ⟨st', ?_, h1, h2, h3⟩
    unfold runChunks
    rw [hnc i]
    simpa using hrun

end StreamingCsv

/-- C8: across any completed (never-cancelled) streaming-delimited run whose
chunk cursors are non-decreasing and within the input's byte size — as
PapaParse's are — the emitted progress events carry non-decreasing
`bytesProcessed` values, and the run resolves with an event list whose last
element is the final `complete` event with `bytesProcessed = totalBytes` and
`percentage = 100`, emitted before the dataset is handed back (the `.ok`
payload pairs the event list, already ending in that event, with the
dataset). -/
theorem c8_streaming_progress (data : String) (config : ParserConfig)
    (chunks : List StreamingCsv.Chunk) (isCancelled : Nat → Bool)
    (hnc : ∀ j, isCancelled j = false)
    (hmono : List.Chain' (· ≤ ·) (chunks.map StreamingCsv.Chunk.cursor))
    (hbound : ∀ c ∈ chunks, c.cursor ≤ blobSize data) :
    ∃ events ds,
      StreamingCsv.parseCSVStreaming data config chunks isCancelled = .ok (events, ds) ∧
      events ≠ [] ∧
      List.Chain' (fun a b => a.bytesProcessed ≤ b.bytesProcessed) events ∧
      ∃ e, events.getLast? = some e ∧ e.phase = "complete" ∧
        e.bytesProcessed = blobSize data ∧ e.totalBytes = blobSize data ∧
        e.percentage = 100 := by
  obtain ⟨st', hrun, hchain, hev, hb⟩ :=
    StreamingCsv.runChunks_progress config (blobSize data) isCancelled hnc chunks 0
      StreamingCsv.initState hmono hbound
      (fun c _ => by simp [StreamingCsv.initState])
      (by simp [StreamingCsv.initState])
      (by simp [StreamingCsv.initState])
      (by simp [StreamingCsv.initState])
  simp only [StreamingCsv.parseCSVStreaming]
  rw [hrun]
  refine ⟨_, _, rfl, by simp, ?_, ?_⟩
  · refine List.chain'_append.mpr ⟨hchain, List.chain'_singleton _, ?_⟩
    intro x hx y hy
    simp only [List.head?_cons, Option.mem_def, Option.some.injEq] at hy
    subst hy
    exact (hev x (List.mem_of_getLast?_eq_some hx)).trans hb
  · exact ⟨_, List.getLast?_concat _, rfl, rfl, rfl, rfl⟩

/-- The chunk deliveries of the C8 witness run. -/
def c8chunks : List StreamingCsv.Chunk :=
  [{ rows := [.objRow [("a", "1"), ("b", "2")]], errors := [],
     metaFields := some ["a", "b"], cursor := 4, now := 200 },
   { rows := [.objRow [("a", "3"), ("b", "4")]], errors := [],
     metaFields := none, cursor := 11, now := 400 }]

/-- C8 witness: the streaming-progress theorem on a concrete two-chunk,
never-cancelled run over `"a,b\n1,2\n3,4"`. -/
theorem c8_streaming_progress_witness :
    ∃ events ds,
      StreamingCsv.parseCSVStreaming "a,b\n1,2\n3,4" { type := "csv", name := "t" }
        c8chunks (fun _ => false) = .ok (events, ds) ∧
      events ≠ [] ∧
      List.Chain' (fun a b => a.bytesProcessed ≤ b.bytesProcessed) events ∧
      ∃ e, events.getLast? = some e ∧ e.phase = "complete" ∧
        e.bytesProcessed = blobSize "a,b\n1,2\n3,4" ∧
        e.totalBytes = blobSize "a,b\n1,2\n3,4" ∧ e.percentage = 100 :=
  c8_streaming_progress "a,b\n1,2\n3,4" { type := "csv", name := "t" }
    c8chunks (fun _ => false) (fun _ => rfl)
    (by simp [c8chunks, List.chain'_cons]) (by decide)

namespace ParserService

/-- Deleting an id from the pending map removes every occurrence of it. -/
theorem contains_filter_ne (l : List String) (x : String) :
    (l.filter (· ≠ x)).contains x = false := by
  simp only [List.contains_eq_any_beq]
  simp
  exact fun a _ h h2 => h h2.symm

/-- Filtering never reintroduces an absent id. -/
theorem contains_filter_of_not (l : List String) (p : String → Bool) (x : String)
    (h : l.contains x = false) : (l.filter p).contains x = false := by
  by_contra hc
  have hmem : x ∈ l.filter p := by
    cases hcc : (l.filter p).contains x
    · exact absurd hcc hc
    · simpa using hcc
  have : x ∈ l := (List.mem_filter.mp hmem).1
  simp [this] at h

/-- One worker message can neither re-add an absent id to the pending map nor
deliver anything for it. -/
theorem handleWorkerMessage_absent (st : ServiceState) (m : WMsg) (x : String)
    (h : st.pendingRequests.contains x = false) :
    (handleWorkerMessage st m).1.pendingRequests.contains x = false ∧
      (∀ d, (handleWorkerMessage st m).2 = some d → d.reqId ≠ x) := by
  have hdel : ∀ d : Delivery, st.pendingRequests.contains m.id = true → d.reqId = m.id →
      d.reqId ≠ x := by
    intro d hreq hid hcontra
    rw [hcontra] at hid
    rw [← hid] at hreq
    rw [hreq] at h
    cases h
  unfold handleWorkerMessage
  by_cases hguard : st.pendingRequests.contains m.id = false ∧ m.type ≠ WMsgType.ready
  · rw [if_pos hguard]
    exact ⟨h, fun d hd => by cases hd⟩
  · rw [if_neg hguard]
    cases htype : m.type with
    | ready => exact ⟨h, fun d hd => by cases hd⟩
    | progress =>
      refine ⟨h, ?_⟩
      intro d hd
      cases hreq : st.pendingRequests.contains m.id with
      | false => rw [hreq] at hd; cases hd
      | true =>
        rw [hreq] at hd
        simp only [if_true] at hd
        cases hd
        exact hdel _ hreq rfl
    | result success =>
      refine ⟨contains_filter_of_not _ _ _ h, ?_⟩
      intro d hd
      cases hreq : st.pendingRequests.contains m.id with
      | false => rw [hreq] at hd; cases hd
      | true =>
        rw [hreq] at hd
        simp only [if_true] at hd
        cases hd
        cases success <;> exact hdel _ hreq rfl
    | error =>
      refine ⟨contains_filter_of_not _ _ _ h, ?_⟩
      intro d hd
      cases hreq : st.pendingRequests.contains m.id with
      | false => rw [hreq] at hd; cases hd
      | true =>
        rw [hreq] at hd
        simp only [if_true] at hd
        cases hd
        exact hdel _ hreq rfl

/-- Replaying any worker-message sequence from a state where an id is absent:
the id stays absent and no delivery ever names it. -/
theorem runMessages_absent (x : String) :
    ∀ (msgs : List WMsg) (st : ServiceState),
      st.pendingRequests.contains x = false →
      (runMessages st msgs).1.pendingRequests.contains x = false ∧
        ∀ d ∈ (runMessages st msgs).2, d.reqId ≠ x
  | [], st => by
    intro h
    exact ⟨h, by intro d hd; cases hd⟩
  | m :: rest, st => by
    intro h
    obtain ⟨h1, h2⟩ := handleWorkerMessage_absent st m x h
    obtain ⟨h3, h4⟩ := runMessages_absent x rest (handleWorkerMessage st m).1 h1
    refine ⟨h3, ?_⟩
    intro d hd
    simp only [runMessages, List.mem_append] at hd
    rcases hd with hd | hd
    · cases hopt : (handleWorkerMessage st m).2 with
      | none => rw [hopt] at hd; cases hd
      | some d0 =>
        rw [hopt] at hd
        simp only [List.mem_singleton] at hd
        subst hd
        exact h2 d hopt
    · exact h4 d hd

end ParserService

/-- C9: once `cancel()` runs for an in-flight worker request, the request id
is immediately absent from the shared pending-request map (so a status query
computed over that map no longer counts it), and no result is ever delivered
for that id — any later worker `result`, `error` or `progress` message
carrying the id is ignored rather than resolving or rejecting the request's
promise, and the id never re-enters the map. -/
theorem c9_cancel_suppresses_delivery (st : ParserService.ServiceState)
    (requestId : String) (msgs : List ParserService.WMsg) :
    (ParserService.cancelRequest requestId st).pendingRequests.contains requestId = false ∧
    (ParserService.runMessages (ParserService.cancelRequest requestId st)
        msgs).1.pendingRequests.contains requestId = false ∧
    (∀ d ∈ (ParserService.runMessages (ParserService.cancelRequest requestId st) msgs).2,
      d.reqId ≠ requestId) := by
  have habs : (ParserService.cancelRequest requestId st).pendingRequests.contains
      requestId = false :=
    ParserService.contains_filter_ne _ _
  obtain ⟨h1, h2⟩ := ParserService.runMessages_absent requestId msgs
    (ParserService.cancelRequest requestId st) habs
  exact ⟨habs, h1, h2⟩

/-- C9 witness: the cancellation theorem applied to a concrete state with two
pending requests and a message replay that tries to resolve, progress and
reject the cancelled id (and resolves the surviving one). -/
theorem c9_cancel_suppresses_delivery_witness :
    (ParserService.cancelRequest "parse-1"
      { pendingRequests := ["parse-1", "parse-2"], workerReady := true,
        wasmAvailable := false }).pendingRequests.contains "parse-1" = false ∧
    (ParserService.runMessages
        (ParserService.cancelRequest "parse-1"
          { pendingRequests := ["parse-1", "parse-2"], workerReady := true,
            wasmAvailable := false })
        [{ type := .progress, id := "parse-1" },
         { type := .result true, id := "parse-1" },
         { type := .error, id := "parse-1" },
         { type := .result true, id := "parse-2" }]).1.pendingRequests.contains
      "parse-1" = false ∧
    (∀ d ∈ (ParserService.runMessages
        (ParserService.cancelRequest "parse-1"
          { pendingRequests := ["parse-1", "parse-2"], workerReady := true,
            wasmAvailable := false })
        [{ type := .progress, id := "parse-1" },
         { type := .result true, id := "parse-1" },
         { type := .error, id := "parse-1" },
         { type := .result true, id := "parse-2" }]).2,
      d.reqId ≠ "parse-1") :=
  c9_cancel_suppresses_delivery
    { pendingRequests := ["parse-1", "parse-2"], workerReady := true,
      wasmAvailable := false }
    "parse-1"
    [{ type := .progress, id := "parse-1" },
     { type := .result true, id := "parse-1" },
     { type := .error, id := "parse-1" },
     { type := .result true, id := "parse-2" }]
